import Mathlib

set_option maxRecDepth 8192

/-!
Verification of the block / block-identifier core of `ethers-core`
(`src/ethers-core/src/types/chainstate/block.rs`).

The development shallowly embeds the Rust code:

* a `Json` value type standing for the JSON wire values that serde
  produces and consumes;
* the hex-quantity and fixed-width hex string renderings used by the
  opaque primitive types (`U64`, `U256`, `H256`, `Address`, `Bloom`,
  `Bytes`); the primitives themselves are external collaborators of the
  crate, so their renderings are modelled from the spec's description
  (0x-prefixed lowercase hex, minimal width for quantities, fixed width
  for hashes);
* the custom `Serialize` impls of `BlockId` and `BlockNumber`;
* the serde-derived `Deserialize`/`Serialize` of `Block<TX>` in both
  compile configurations (the default one, and the `celo` feature), as
  a field-table decoder: wire keys are renamed per the `#[serde(rename)]`
  attributes, unknown keys are ignored, duplicate known keys are
  rejected, `Option` fields decode to `none` when the key is absent,
  `seal_fields` defaults to the empty list, and every other field is
  required.
-/

/-- JSON values, as far as this core consumes or produces them.
Numbers never appear on this wire (quantities are hex strings), so they
are omitted. -/
inductive Json : Type where
  | null : Json
  | str : String → Json
  | arr : List Json → Json
  | obj : List (String × Json) → Json

/-- Structured decode errors, mirroring the serde error cases the derived
deserializer can produce for a struct: a missing required field, a value
of the wrong shape, and a duplicated field. -/
inductive DecodeError : Type where
  | missingField (name : String) : DecodeError
  | typeMismatch (expected : String) : DecodeError
  | duplicateField (name : String) : DecodeError
deriving DecidableEq

/-! ## Hex digits -/

/-- Lowercase hex digit character for a value `n < 16` (models Rust's
`{:x}` digit rendering). -/
def hexDigitChar (n : Nat) : Char :=
  if n < 10 then Char.ofNat (48 + n) else Char.ofNat (87 + n)

/-- Value of a hex digit character; accepts both cases on decode, as the
external hex parser does. -/
def hexCharVal (c : Char) : Option (Fin 16) :=
  if h : 48 ≤ c.toNat ∧ c.toNat ≤ 57 then some ⟨c.toNat - 48, by omega⟩
  else if h' : 97 ≤ c.toNat ∧ c.toNat ≤ 102 then some ⟨c.toNat - 87, by omega⟩
  else if h'' : 65 ≤ c.toNat ∧ c.toNat ≤ 70 then some ⟨c.toNat - 55, by omega⟩
  else none

/-- Is `c` one of the sixteen lowercase hex digit characters? -/
def isLowerHexDigit (c : Char) : Bool :=
  (48 ≤ c.toNat && c.toNat ≤ 57) || (97 ≤ c.toNat && c.toNat ≤ 102)

/-- Minimal hex rendering of `n`, most significant digit first; the first
argument is recursion fuel (any fuel above `n` computes the digits). -/
def toHexAux : Nat → Nat → List Char
  | 0, _ => []
  | f + 1, n =>
    if n < 16 then [hexDigitChar n]
    else toHexAux f (n / 16) ++ [hexDigitChar (n % 16)]

/-- Minimal (no leading zero) lowercase hex digits of `n`; `0` renders as
`"0"`.  Models the digits of Rust's `format!("{:x}", n)`. -/
def natToHex (n : Nat) : List Char := toHexAux (n + 1) n

/-- Fixed-width lowercase hex digits of `n` (low `w` hex digits,
zero-padded), most significant first.  Models the rendering of the
fixed-width hash/address/bloom primitives. -/
def toHexFixed : Nat → Nat → List Char
  | 0, _ => []
  | w + 1, n => toHexFixed w (n / 16) ++ [hexDigitChar (n % 16)]

/-- Reads hex digits most-significant-first, accumulating into `acc`;
fails on a non-hex character. -/
def parseHexAux : List Char → Nat → Option Nat
  | [], acc => some acc
  | c :: cs, acc =>
    match hexCharVal c with
    | some d => parseHexAux cs (16 * acc + d.val)
    | none => none

/-- Modelled from the spec: quantity decode accepts a `0x`-prefixed hex
string of any positive digit count (including `"0x0"`). -/
def parse0x (s : String) : Option Nat :=
  match s.data with
  | '0' :: 'x' :: rest => if rest = [] then none else parseHexAux rest 0
  | _ => none

/-- Modelled from the spec: fixed-width primitives decode from a
`0x`-prefixed hex string of exactly `w` digits. -/
def parse0xFixed (w : Nat) (s : String) : Option Nat :=
  match s.data with
  | '0' :: 'x' :: rest => if rest.length = w then parseHexAux rest 0 else none
  | _ => none

/-- The minimal-width hex-quantity string `"0x…"` of `n`; models
`format!("0x{:x}", n)`. -/
def hexQuantityStr (n : Nat) : String := "0x" ++ String.mk (natToHex n)

/-- The fixed-width hex string `"0x…"` of `n` with `w` digits; models the
`Debug`/serde rendering of the fixed-width primitives. -/
def hexFixedStr (w : Nat) (n : Nat) : String := "0x" ++ String.mk (toHexFixed w n)

/-! ## Hex lemmas -/

theorem hexCharVal_hexDigitChar :
    ∀ d : Fin 16, hexCharVal (hexDigitChar d.val) = some d := by decide

theorem isLowerHexDigit_hexDigitChar :
    ∀ d : Fin 16, isLowerHexDigit (hexDigitChar d.val) = true := by decide

theorem parseHexAux_append (xs ys : List Char) (acc : Nat) :
    parseHexAux (xs ++ ys) acc =
      match parseHexAux xs acc with
      | some v => parseHexAux ys v
      | none => none := by
  induction xs generalizing acc with
  | nil => simp [parseHexAux]
  | cons c cs ih =>
    simp only [List.cons_append, parseHexAux]
    cases hexCharVal c with
    | none => simp
    | some d => simp [ih]

theorem parseHexAux_toHexAux (f : Nat) :
    ∀ n acc, n < f →
      parseHexAux (toHexAux f n) acc =
        some (acc * 16 ^ (toHexAux f n).length + n) := by
  induction f with
  | zero => intro n acc h; omega
  | succ f ih =>
    intro n acc h
    by_cases h16 : n < 16
    · have hd := hexCharVal_hexDigitChar ⟨n, h16⟩
      simp [toHexAux, h16, parseHexAux, hd]
      omega
    · have hdiv : n / 16 < f := by
        have h1 : n / 16 < n := Nat.div_lt_self (by omega) (by omega)
        omega
      have hd := hexCharVal_hexDigitChar ⟨n % 16, Nat.mod_lt _ (by omega)⟩
      simp only [toHexAux, h16, if_false]
      rw [parseHexAux_append, ih (n / 16) acc hdiv]
      simp [parseHexAux, hd]
      rw [Nat.pow_succ]
      have := Nat.div_add_mod n 16
      ring_nf
      omega

theorem parseHexAux_natToHex (n : Nat) :
    parseHexAux (natToHex n) 0 = some n := by
  have := parseHexAux_toHexAux (n + 1) n 0 (Nat.lt_succ_self n)
  simpa [natToHex] using this

theorem toHexFixed_length (w : Nat) : ∀ n, (toHexFixed w n).length = w := by
  induction w with
  | zero => intro n; rfl
  | succ w ih => intro n; simp [toHexFixed, ih]

theorem parseHexAux_toHexFixed (w : Nat) :
    ∀ n acc, n < 16 ^ w →
      parseHexAux (toHexFixed w n) acc = some (acc * 16 ^ w + n) := by
  induction w with
  | zero =>
    intro n acc h
    simp [toHexFixed, parseHexAux]
    omega
  | succ w ih =>
    intro n acc h
    have hdiv : n / 16 < 16 ^ w := by
      rw [Nat.div_lt_iff_lt_mul (by omega)]
      calc n < 16 ^ (w + 1) := h
        _ = 16 ^ w * 16 := by rw [Nat.pow_succ]
    have hd := hexCharVal_hexDigitChar ⟨n % 16, Nat.mod_lt _ (by omega)⟩
    simp only [toHexFixed]
    rw [parseHexAux_append, ih (n / 16) acc hdiv]
    simp [parseHexAux, hd]
    rw [Nat.pow_succ]
    have := Nat.div_add_mod n 16
    ring_nf
    omega

theorem toHexAux_ne_nil (f : Nat) : ∀ n, n < f → toHexAux f n ≠ [] := by
  induction f with
  | zero => intro n h; omega
  | succ f _ =>
    intro n _
    by_cases h16 : n < 16 <;> simp [toHexAux, h16]

theorem toHexAux_head_ne_zero (f : Nat) :
    ∀ n, n < f → n ≠ 0 → (toHexAux f n).head? ≠ some '0' := by
  induction f with
  | zero => intro n h; omega
  | succ f ih =>
    intro n hlt hne
    by_cases h16 : n < 16
    · simp only [toHexAux, h16, if_true, List.head?]
      intro hc
      have hn16 : n < 16 := h16
      interval_cases n <;> simp_all [hexDigitChar]
    · have hdiv : n / 16 < f := by
        have h1 : n / 16 < n := Nat.div_lt_self (by omega) (by omega)
        omega
      have hdne : n / 16 ≠ 0 := by
        have h1 : 16 / 16 ≤ n / 16 := Nat.div_le_div_right (by omega)
        norm_num at h1
        omega
      simp only [toHexAux, h16, if_false]
      obtain ⟨c, cs, hcons⟩ : ∃ c cs, toHexAux f (n / 16) = c :: cs := by
        cases hc : toHexAux f (n / 16) with
        | nil => exact absurd hc (toHexAux_ne_nil f (n / 16) hdiv)
        | cons c cs => exact ⟨c, cs, rfl⟩
      have := ih (n / 16) hdiv hdne
      rw [hcons] at this ⊢
      simpa using this

theorem natToHex_head_ne_zero (n : Nat) (h : n ≠ 0) :
    (natToHex n).head? ≠ some '0' :=
  toHexAux_head_ne_zero (n + 1) n (Nat.lt_succ_self n) h

theorem toHexAux_all_lower (f : Nat) :
    ∀ n, (toHexAux f n).all isLowerHexDigit = true := by
  induction f with
  | zero => intro n; rfl
  | succ f ih =>
    intro n
    by_cases h16 : n < 16
    · simpa [toHexAux, h16] using isLowerHexDigit_hexDigitChar ⟨n, h16⟩
    · have := isLowerHexDigit_hexDigitChar ⟨n % 16, Nat.mod_lt _ (by omega)⟩
      simp [toHexAux, h16, List.all_append, ih, this]

theorem natToHex_all_lower (n : Nat) :
    (natToHex n).all isLowerHexDigit = true :=
  toHexAux_all_lower (n + 1) n

theorem toHexFixed_all_lower (w : Nat) :
    ∀ n, (toHexFixed w n).all isLowerHexDigit = true := by
  induction w with
  | zero => intro n; rfl
  | succ w ih =>
    intro n
    have := isLowerHexDigit_hexDigitChar ⟨n % 16, Nat.mod_lt _ (by omega)⟩
    simp [toHexFixed, List.all_append, ih, this]

theorem parseHexAux_total (cs : List Char) :
    ∀ acc, cs.all (fun c => (hexCharVal c).isSome) = true →
      ∃ v, parseHexAux cs acc = some v := by
  induction cs with
  | nil => intro acc _; exact ⟨acc, rfl⟩
  | cons c cs ih =>
    intro acc h
    simp only [List.all_cons, Bool.and_eq_true] at h
    obtain ⟨d, hd⟩ := Option.isSome_iff_exists.mp h.1
    simpa [parseHexAux, hd] using ih (16 * acc + d.val) h.2

theorem parse0x_hexQuantityStr (n : Nat) : parse0x (hexQuantityStr n) = some n := by
  have hdata : (hexQuantityStr n).data = '0' :: 'x' :: natToHex n := by
    simp [hexQuantityStr, String.data_append]
  have hne : natToHex n ≠ [] := toHexAux_ne_nil (n + 1) n (Nat.lt_succ_self n)
  simp [parse0x, hdata, hne, parseHexAux_natToHex]

theorem parse0xFixed_hexFixedStr (w n : Nat) (h : n < 16 ^ w) :
    parse0xFixed w (hexFixedStr w n) = some n := by
  have hdata : (hexFixedStr w n).data = '0' :: 'x' :: toHexFixed w n := by
    simp [hexFixedStr, String.data_append]
  simp [parse0xFixed, hdata, toHexFixed_length, parseHexAux_toHexFixed w n 0 h]

/-! ## Primitive types

The crate treats these as opaque external collaborators (`ethereum-types`);
per the spec they are fixed-width hashes / big unsigned integers /
byte strings with 0x-hex wire forms, modelled here as bounded naturals
and byte lists. -/

/-- 256-bit hash (`H256`). -/
abbrev H256 : Type := Fin (2 ^ 256)

/-- 160-bit address (`Address`). -/
abbrev Address : Type := Fin (2 ^ 160)

/-- 256-bit unsigned quantity (`U256`). -/
abbrev U256 : Type := Fin (2 ^ 256)

/-- 64-bit unsigned quantity (`U64`). -/
abbrev U64 : Type := Fin (2 ^ 64)

/-- 2048-bit bloom filter (`Bloom`). -/
abbrev Bloom : Type := Fin (2 ^ 2048)

/-- Variable-length byte string (`Bytes`). -/
abbrev Bytes : Type := List (Fin 256)

/-- Modelled from the spec: quantity encode — minimal lowercase
`0x`-prefixed hex (`format!("0x{:x}", ·)`). -/
def encQuantity (n : Nat) : Json := .str (hexQuantityStr n)

/-- Modelled from the spec: fixed-width encode of a `w`-hex-digit
primitive. -/
def encFixed (w : Nat) (n : Nat) : Json := .str (hexFixedStr w n)

def encU64 (x : U64) : Json := encQuantity x.val

def encU256 (x : U256) : Json := encQuantity x.val

def encH256 (x : H256) : Json := encFixed 64 x.val

def encAddress (x : Address) : Json := encFixed 40 x.val

def encBloom (x : Bloom) : Json := encFixed 512 x.val

/-- Two lowercase hex digits per byte. -/
def bytesHexChars (bs : Bytes) : List Char :=
  bs.flatMap fun b => [hexDigitChar (b.val / 16), hexDigitChar (b.val % 16)]

def encBytes (bs : Bytes) : Json := .str ("0x" ++ String.mk (bytesHexChars bs))

/-- `None` serializes to JSON `null`, `Some x` to the encoding of `x`
(serde's default `Option` serialization). -/
def encOption (e : α → Json) : Option α → Json
  | none => .null
  | some x => e x

/-- Modelled from the spec: quantity decode — a `0x`-prefixed hex string
of any positive digit count whose value fits the primitive's width. -/
def decQuantity (width : Nat) (expected : String) : Json → Except DecodeError (Fin (2 ^ width))
  | .str s =>
    match parse0x s with
    | some n =>
      if h : n < 2 ^ width then .ok ⟨n, h⟩ else .error (.typeMismatch expected)
    | none => .error (.typeMismatch expected)
  | _ => .error (.typeMismatch expected)

/-- Modelled from the spec: fixed-width decode — a `0x`-prefixed hex
string of exactly `w` digits. -/
def decFixed (w : Nat) (expected : String) : Json → Except DecodeError (Fin (2 ^ (4 * w)))
  | .str s =>
    match parse0xFixed w s with
    | some n =>
      if h : n < 2 ^ (4 * w) then .ok ⟨n, h⟩ else .error (.typeMismatch expected)
    | none => .error (.typeMismatch expected)
  | _ => .error (.typeMismatch expected)

def decU64 : Json → Except DecodeError U64 := decQuantity 64 "U64"

def decU256 : Json → Except DecodeError U256 := decQuantity 256 "U256"

def decH256 : Json → Except DecodeError H256 := decFixed 64 "H256"

def decAddress : Json → Except DecodeError Address := decFixed 40 "Address"

def decBloom : Json → Except DecodeError Bloom := decFixed 512 "Bloom"

/-- Reads byte pairs of hex digits. -/
def parseBytesAux : List Char → Option Bytes
  | [] => some []
  | [_] => none
  | c1 :: c2 :: rest =>
    match hexCharVal c1, hexCharVal c2 with
    | some d1, some d2 =>
      (parseBytesAux rest).map fun bs => ⟨16 * d1.val + d2.val, by omega⟩ :: bs
    | _, _ => none

def decBytes : Json → Except DecodeError Bytes
  | .str s =>
    match s.data with
    | '0' :: 'x' :: rest =>
      match parseBytesAux rest with
      | some bs => .ok bs
      | none => .error (.typeMismatch "Bytes")
    | _ => .error (.typeMismatch "Bytes")
  | _ => .error (.typeMismatch "Bytes")

/-- serde's `Option` deserialization of a present value: `null` is
`none`, anything else decodes with the inner decoder. -/
def decOptVal (d : Json → Except DecodeError α) : Json → Except DecodeError (Option α)
  | .null => .ok none
  | v => (d v).map some

/-- serde's `Vec` deserialization: the value must be an array and every
element must decode. -/
def decListOf (d : Json → Except DecodeError α) : Json → Except DecodeError (List α)
  | .arr es => es.mapM d
  | _ => .error (.typeMismatch "sequence")

/-! ## Round-trip lemmas for the primitive codecs -/

theorem decQuantity_encQuantity (width : Nat) (expected : String) (x : Fin (2 ^ width)) :
    decQuantity width expected (encQuantity x.val) = .ok x := by
  simp [decQuantity, encQuantity, parse0x_hexQuantityStr, x.isLt]

theorem decFixed_encFixed (w : Nat) (expected : String) (x : Fin (2 ^ (4 * w))) :
    decFixed w expected (encFixed w x.val) = .ok x := by
  have hb : x.val < 16 ^ w := by
    have h1 : (16 : Nat) ^ w = 2 ^ (4 * w) := by
      rw [show (16 : Nat) = 2 ^ 4 from rfl, ← Nat.pow_mul]
    rw [h1]
    exact x.isLt
  simp [decFixed, encFixed, parse0xFixed_hexFixedStr w x.val hb, x.isLt]

theorem decU64_encU64 (x : U64) : decU64 (encU64 x) = .ok x :=
  decQuantity_encQuantity 64 "U64" x

theorem decU256_encU256 (x : U256) : decU256 (encU256 x) = .ok x :=
  decQuantity_encQuantity 256 "U256" x

theorem decH256_encH256 (x : H256) : decH256 (encH256 x) = .ok x :=
  decFixed_encFixed 64 "H256" x

theorem decAddress_encAddress (x : Address) : decAddress (encAddress x) = .ok x :=
  decFixed_encFixed 40 "Address" x

theorem decBloom_encBloom (x : Bloom) : decBloom (encBloom x) = .ok x :=
  decFixed_encFixed 512 "Bloom" x

theorem parseBytesAux_bytesHexChars (bs : Bytes) :
    parseBytesAux (bytesHexChars bs) = some bs := by
  induction bs with
  | nil => rfl
  | cons b rest ih =>
    have h1 := hexCharVal_hexDigitChar ⟨b.val / 16, by omega⟩
    have h2 := hexCharVal_hexDigitChar ⟨b.val % 16, Nat.mod_lt _ (by omega)⟩
    simp only [bytesHexChars, List.flatMap_cons, List.cons_append, List.nil_append]
    show parseBytesAux (hexDigitChar (b.val / 16) :: hexDigitChar (b.val % 16) ::
      bytesHexChars rest) = some (b :: rest)
    rw [parseBytesAux, h1, h2, ih]
    simp only [Option.map_some]
    have hb : (⟨16 * (b.val / 16) + b.val % 16, by omega⟩ : Fin 256) = b :=
      Fin.ext (show 16 * (b.val / 16) + b.val % 16 = b.val by omega)
    rw [hb]
    rfl

theorem decBytes_encBytes (bs : Bytes) : decBytes (encBytes bs) = .ok bs := by
  have hdata : ("0x" ++ String.mk (bytesHexChars bs)).data =
      '0' :: 'x' :: bytesHexChars bs := by
    simp [String.data_append]
  simp [decBytes, encBytes, hdata, parseBytesAux_bytesHexChars]

theorem decOptVal_encOption (d : Json → Except DecodeError α) (e : α → Json)
    (hne : ∀ x, e x ≠ .null) (hrt : ∀ x, d (e x) = .ok x) (o : Option α) :
    decOptVal d (encOption e o) = .ok o := by
  cases o with
  | none => rfl
  | some x =>
    have : decOptVal d (e x) = (d (e x)).map some := by
      cases he : e x with
      | null => exact absurd he (hne x)
      | str s => rfl
      | arr es => rfl
      | obj kvs => rfl
    simp [encOption, this, hrt x, Except.map]

theorem decListOf_encList (d : Json → Except DecodeError α) (e : α → Json)
    (hrt : ∀ x, d (e x) = .ok x) (l : List α) :
    decListOf d (.arr (l.map e)) = .ok l := by
  simp only [decListOf]
  induction l with
  | nil => rfl
  | cons x xs ih =>
    simp only [List.map_cons, List.mapM_cons, hrt x]
    simp only [List.mapM_cons, hrt x] at ih ⊢
    cases hm : List.mapM d (xs.map e) with
    | error err => rw [hm] at ih; simp [bind, Except.bind] at ih
    | ok ys =>
      rw [hm] at ih
      simp only [bind, Except.bind, pure, Except.pure] at ih ⊢
      cases ih
      rfl

/-! ## BlockNumber and BlockId (`block.rs` lines 138–170) -/

/-- A block number (or tag - "latest", "earliest", "pending"). -/
inductive BlockNumber : Type where
  /-- Latest block -/
  | Latest : BlockNumber
  /-- Earliest block (genesis) -/
  | Earliest : BlockNumber
  /-- Pending block (not yet part of the blockchain) -/
  | Pending : BlockNumber
  /-- Block by number from canon chain -/
  | Number : U64 → BlockNumber
deriving DecidableEq

/-- A Block Hash or Block Number. -/
inductive BlockId : Type where
  /-- A block hash -/
  | Hash : H256 → BlockId
  /-- A block number -/
  | Number : BlockNumber → BlockId
deriving DecidableEq

/-- `impl<T: Into<U64>> From<T> for BlockNumber`: a plain integer always
converts to the `Number` variant. -/
def BlockNumber.from_U64 (num : U64) : BlockNumber := BlockNumber.Number num

/-- `impl From<BlockNumber> for BlockId`. -/
def BlockId.from_BlockNumber (num : BlockNumber) : BlockId := BlockId.Number num

/-- `impl From<u64> for BlockId`: `BlockNumber::Number(num.into()).into()`
(the `u64 → U64` conversion is the identity on the underlying value). -/
def BlockId.from_u64 (num : Fin (2 ^ 64)) : BlockId :=
  BlockId.from_BlockNumber (BlockNumber.Number num)

/-- `impl From<U64> for BlockId`: `BlockNumber::Number(num).into()`. -/
def BlockId.from_U64 (num : U64) : BlockId :=
  BlockId.from_BlockNumber (BlockNumber.Number num)

/-- `impl From<H256> for BlockId`. -/
def BlockId.from_H256 (hash : H256) : BlockId := BlockId.Hash hash

/-- `impl Serialize for BlockNumber`: `Number(x)` renders as
`serialize_str(format!("0x{:x}", x))`, the tags as their literal
strings. -/
def BlockNumber.serialize : BlockNumber → Json
  | BlockNumber.Number x => .str (hexQuantityStr x.val)
  | BlockNumber.Latest => .str "latest"
  | BlockNumber.Earliest => .str "earliest"
  | BlockNumber.Pending => .str "pending"

/-- Models `format!("{:?}", x)` on the external `H256`: `0x` followed by
its 64 lowercase hex digits. -/
def h256DebugStr (x : H256) : String := hexFixedStr 64 x.val

/-- `impl Serialize for BlockId`: `Hash(x)` renders as the one-field
struct `{"blockHash": format!("{:?}", x)}`, `Number(num)` delegates to
`num.serialize`. -/
def BlockId.serialize : BlockId → Json
  | BlockId.Hash x => .obj [("blockHash", .str (h256DebugStr x))]
  | BlockId.Number num => num.serialize

/-! ## The Block record (`block.rs` lines 15–85)

The struct is compiled in one of two configurations.  `Block` below is
the default (`not(feature = "celo")`) shape; `BlockCelo` is the
`feature = "celo"` shape, which drops `uncles_hash`, `gas_limit`,
`difficulty`, `uncles`, `mix_hash` and `nonce` and adds the required
`randomness` record. -/

/-- Celo's verifiable-randomness commitment record. -/
structure Randomness : Type where
  /-- The committed randomness for that block -/
  committed : Bytes
  /-- The revealed randomness for that block -/
  revealed : Bytes
deriving DecidableEq

/-- The block type returned from RPC calls, default configuration.
Generic over a `TX` type which is either the hash or the full
transaction. -/
structure Block (TX : Type) : Type where
  hash : Option H256
  parent_hash : H256
  uncles_hash : H256
  author : Address
  state_root : H256
  transactions_root : H256
  receipts_root : H256
  number : Option U64
  gas_used : U256
  gas_limit : U256
  extra_data : Bytes
  logs_bloom : Option Bloom
  timestamp : U256
  difficulty : U256
  total_difficulty : Option U256
  seal_fields : List Bytes
  uncles : List H256
  transactions : List TX
  size : Option U256
  mix_hash : Option H256
  nonce : Option U64
deriving DecidableEq

/-- The block type in the `celo` configuration. -/
structure BlockCelo (TX : Type) : Type where
  hash : Option H256
  parent_hash : H256
  author : Address
  state_root : H256
  transactions_root : H256
  receipts_root : H256
  number : Option U64
  gas_used : U256
  extra_data : Bytes
  logs_bloom : Option Bloom
  timestamp : U256
  total_difficulty : Option U256
  seal_fields : List Bytes
  transactions : List TX
  size : Option U256
  randomness : Randomness
deriving DecidableEq

/-! ## The derived deserializer -/

/-- First value bound to `name` in a JSON object's field list (serde maps
each expected field to the value at its wire key). -/
def getField : List (String × Json) → String → Option Json
  | [], _ => none
  | p :: rest, name => if p.1 = name then some p.2 else getField rest name

/-- First known wire key that occurs more than once, if any (the derived
deserializer rejects duplicates of known fields with
`duplicate_field`). -/
def dupField (known : List String) (kvs : List (String × Json)) : Option String :=
  known.find? fun k => decide (2 ≤ kvs.countP fun p => p.1 == k)

/-- A field with no `default` and a non-`Option` type: required. -/
def reqFieldD (kvs : List (String × Json)) (name : String)
    (d : Json → Except DecodeError α) : Except DecodeError α :=
  match getField kvs name with
  | none => .error (.missingField name)
  | some v => d v

/-- An `Option` field: absent or `null` is `none`. -/
def optFieldD (kvs : List (String × Json)) (name : String)
    (d : Json → Except DecodeError α) : Except DecodeError (Option α) :=
  match getField kvs name with
  | none => .ok none
  | some v => decOptVal d v

/-- A `#[serde(default)]` field: absent takes the default value. -/
def defFieldD (kvs : List (String × Json)) (name : String)
    (d : Json → Except DecodeError α) (dflt : α) : Except DecodeError α :=
  match getField kvs name with
  | none => .ok dflt
  | some v => d v

/-- The wire keys the default-configuration deserializer knows (with the
`#[serde(rename = …)]` renames applied). -/
def knownBlockKeys : List String :=
  ["hash", "parentHash", "sha3Uncles", "miner", "stateRoot",
   "transactionsRoot", "receiptsRoot", "number", "gasUsed", "gasLimit",
   "extraData", "logsBloom", "timestamp", "difficulty", "totalDifficulty",
   "sealFields", "uncles", "transactions", "size", "mixHash", "nonce"]

/-- The wire keys whose absence is a decode error in the default
configuration (non-`Option` fields without a `default`). -/
def requiredBlockKeys : List String :=
  ["parentHash", "sha3Uncles", "miner", "stateRoot", "transactionsRoot",
   "receiptsRoot", "gasUsed", "gasLimit", "extraData", "timestamp",
   "difficulty", "uncles", "transactions"]

/-- The derived `Deserialize` of `Block<TX>` in the default
configuration, parametric in the element decoder `dTX`. -/
def Block.deserialize (dTX : Json → Except DecodeError TX) :
    Json → Except DecodeError (Block TX)
  | .obj kvs =>
    match dupField knownBlockKeys kvs with
    | some k => .error (.duplicateField k)
    | none => do
      let hash ← optFieldD kvs "hash" decH256
      let parent_hash ← reqFieldD kvs "parentHash" decH256
      let uncles_hash ← reqFieldD kvs "sha3Uncles" decH256
      let author ← reqFieldD kvs "miner" decAddress
      let state_root ← reqFieldD kvs "stateRoot" decH256
      let transactions_root ← reqFieldD kvs "transactionsRoot" decH256
      let receipts_root ← reqFieldD kvs "receiptsRoot" decH256
      let number ← optFieldD kvs "number" decU64
      let gas_used ← reqFieldD kvs "gasUsed" decU256
      let gas_limit ← reqFieldD kvs "gasLimit" decU256
      let extra_data ← reqFieldD kvs "extraData" decBytes
      let logs_bloom ← optFieldD kvs "logsBloom" decBloom
      let timestamp ← reqFieldD kvs "timestamp" decU256
      let difficulty ← reqFieldD kvs "difficulty" decU256
      let total_difficulty ← optFieldD kvs "totalDifficulty" decU256
      let seal_fields ← defFieldD kvs "sealFields" (decListOf decBytes) []
      let uncles ← reqFieldD kvs "uncles" (decListOf decH256)
      let transactions ← reqFieldD kvs "transactions" (decListOf dTX)
      let size ← optFieldD kvs "size" decU256
      let mix_hash ← optFieldD kvs "mixHash" decH256
      let nonce ← optFieldD kvs "nonce" decU64
      pure { hash, parent_hash, uncles_hash, author, state_root,
             transactions_root, receipts_root, number, gas_used, gas_limit,
             extra_data, logs_bloom, timestamp, difficulty, total_difficulty,
             seal_fields, uncles, transactions, size, mix_hash, nonce }
  | _ => .error (.typeMismatch "struct Block")

/-- The derived `Deserialize` of `Randomness` (`celo` configuration). -/
def Randomness.deserialize : Json → Except DecodeError Randomness
  | .obj kvs =>
    match dupField ["committed", "revealed"] kvs with
    | some k => .error (.duplicateField k)
    | none => do
      let committed ← reqFieldD kvs "committed" decBytes
      let revealed ← reqFieldD kvs "revealed" decBytes
      pure { committed, revealed }
  | _ => .error (.typeMismatch "struct Randomness")

/-- The wire keys the `celo`-configuration deserializer knows. -/
def knownBlockCeloKeys : List String :=
  ["hash", "parentHash", "miner", "stateRoot", "transactionsRoot",
   "receiptsRoot", "number", "gasUsed", "extraData", "logsBloom",
   "timestamp", "totalDifficulty", "sealFields", "transactions", "size",
   "randomness"]

/-- The derived `Deserialize` of `Block<TX>` in the `celo`
configuration. -/
def BlockCelo.deserialize (dTX : Json → Except DecodeError TX) :
    Json → Except DecodeError (BlockCelo TX)
  | .obj kvs =>
    match dupField knownBlockCeloKeys kvs with
    | some k => .error (.duplicateField k)
    | none => do
      let hash ← optFieldD kvs "hash" decH256
      let parent_hash ← reqFieldD kvs "parentHash" decH256
      let author ← reqFieldD kvs "miner" decAddress
      let state_root ← reqFieldD kvs "stateRoot" decH256
      let transactions_root ← reqFieldD kvs "transactionsRoot" decH256
      let receipts_root ← reqFieldD kvs "receiptsRoot" decH256
      let number ← optFieldD kvs "number" decU64
      let gas_used ← reqFieldD kvs "gasUsed" decU256
      let extra_data ← reqFieldD kvs "extraData" decBytes
      let logs_bloom ← optFieldD kvs "logsBloom" decBloom
      let timestamp ← reqFieldD kvs "timestamp" decU256
      let total_difficulty ← optFieldD kvs "totalDifficulty" decU256
      let seal_fields ← defFieldD kvs "sealFields" (decListOf decBytes) []
      let transactions ← reqFieldD kvs "transactions" (decListOf dTX)
      let size ← optFieldD kvs "size" decU256
      let randomness ← reqFieldD kvs "randomness" Randomness.deserialize
      pure { hash, parent_hash, author, state_root, transactions_root,
             receipts_root, number, gas_used, extra_data, logs_bloom,
             timestamp, total_difficulty, seal_fields, transactions, size,
             randomness }
  | _ => .error (.typeMismatch "struct Block")

/-- The derived `Serialize` of `Block<TX>` in the default configuration:
all fields in declaration order under their wire keys, `Option` fields
as `null` or the value. -/
def Block.serializeFields (eTX : TX → Json) (b : Block TX) :
    List (String × Json) :=
  [("hash", encOption encH256 b.hash),
   ("parentHash", encH256 b.parent_hash),
   ("sha3Uncles", encH256 b.uncles_hash),
   ("miner", encAddress b.author),
   ("stateRoot", encH256 b.state_root),
   ("transactionsRoot", encH256 b.transactions_root),
   ("receiptsRoot", encH256 b.receipts_root),
   ("number", encOption encU64 b.number),
   ("gasUsed", encU256 b.gas_used),
   ("gasLimit", encU256 b.gas_limit),
   ("extraData", encBytes b.extra_data),
   ("logsBloom", encOption encBloom b.logs_bloom),
   ("timestamp", encU256 b.timestamp),
   ("difficulty", encU256 b.difficulty),
   ("totalDifficulty", encOption encU256 b.total_difficulty),
   ("sealFields", .arr (b.seal_fields.map encBytes)),
   ("uncles", .arr (b.uncles.map encH256)),
   ("transactions", .arr (b.transactions.map eTX)),
   ("size", encOption encU256 b.size),
   ("mixHash", encOption encH256 b.mix_hash),
   ("nonce", encOption encU64 b.nonce)]

/-- The derived `Serialize` of `Block<TX>` wraps the field list in a JSON
object. -/
def Block.serialize (eTX : TX → Json) (b : Block TX) : Json :=
  .obj (Block.serializeFields eTX b)

/-! ## Success characterization of the derived deserializer -/

theorem except_bind_ok {ε α β : Type} {x : Except ε α} {f : α → Except ε β} {b : β} :
    (x >>= f) = .ok b ↔ ∃ a, x = .ok a ∧ f a = .ok b := by
  refine ⟨fun hx => ?_, fun hx => ?_⟩
  · match x, hx with
    | .ok a, hx => exact ⟨a, rfl, hx⟩
    | .error e, hx => exact nomatch hx
  · obtain ⟨a, ha, hf⟩ := hx
    subst ha
    exact hf

theorem except_ok_bind {ε α β : Type} (a : α) (f : α → Except ε β) :
    ((Except.ok a : Except ε α) >>= f) = f a := rfl

/-- A successful default-configuration decode is exactly: no duplicated
known key, and every field extractor succeeds with the corresponding
field of the result. -/
theorem Block.deserialize_obj_ok {TX : Type} (dTX : Json → Except DecodeError TX)
    (kvs : List (String × Json)) (b : Block TX) :
    Block.deserialize dTX (.obj kvs) = .ok b ↔
      dupField knownBlockKeys kvs = none ∧
      optFieldD kvs "hash" decH256 = .ok b.hash ∧
      reqFieldD kvs "parentHash" decH256 = .ok b.parent_hash ∧
      reqFieldD kvs "sha3Uncles" decH256 = .ok b.uncles_hash ∧
      reqFieldD kvs "miner" decAddress = .ok b.author ∧
      reqFieldD kvs "stateRoot" decH256 = .ok b.state_root ∧
      reqFieldD kvs "transactionsRoot" decH256 = .ok b.transactions_root ∧
      reqFieldD kvs "receiptsRoot" decH256 = .ok b.receipts_root ∧
      optFieldD kvs "number" decU64 = .ok b.number ∧
      reqFieldD kvs "gasUsed" decU256 = .ok b.gas_used ∧
      reqFieldD kvs "gasLimit" decU256 = .ok b.gas_limit ∧
      reqFieldD kvs "extraData" decBytes = .ok b.extra_data ∧
      optFieldD kvs "logsBloom" decBloom = .ok b.logs_bloom ∧
      reqFieldD kvs "timestamp" decU256 = .ok b.timestamp ∧
      reqFieldD kvs "difficulty" decU256 = .ok b.difficulty ∧
      optFieldD kvs "totalDifficulty" decU256 = .ok b.total_difficulty ∧
      defFieldD kvs "sealFields" (decListOf decBytes) [] = .ok b.seal_fields ∧
      reqFieldD kvs "uncles" (decListOf decH256) = .ok b.uncles ∧
      reqFieldD kvs "transactions" (decListOf dTX) = .ok b.transactions ∧
      optFieldD kvs "size" decU256 = .ok b.size ∧
      optFieldD kvs "mixHash" decH256 = .ok b.mix_hash ∧
      optFieldD kvs "nonce" decU64 = .ok b.nonce := by
  constructor
  · intro h
    simp only [Block.deserialize] at h
    cases hdup : dupField knownBlockKeys kvs with
    | some k => rw [hdup] at h; simp at h
    | none =>
      rw [hdup] at h
      simp only [except_bind_ok] at h
      obtain ⟨hash, h1, parent_hash, h2, uncles_hash, h3, author, h4,
        state_root, h5, transactions_root, h6, receipts_root, h7, number, h8,
        gas_used, h9, gas_limit, h10, extra_data, h11, logs_bloom, h12,
        timestamp, h13, difficulty, h14, total_difficulty, h15, seal_fields,
        h16, uncles, h17, transactions, h18, size, h19, mix_hash, h20,
        nonce, h21, hpure⟩ := h
      have hb : (⟨hash, parent_hash, uncles_hash, author, state_root,
          transactions_root, receipts_root, number, gas_used, gas_limit,
          extra_data, logs_bloom, timestamp, difficulty, total_difficulty,
          seal_fields, uncles, transactions, size, mix_hash, nonce⟩ :
          Block TX) = b := by
        simpa [pure, Except.pure] using hpure
      subst hb
      exact ⟨rfl, h1, h2, h3, h4, h5, h6, h7, h8, h9, h10, h11, h12, h13,
        h14, h15, h16, h17, h18, h19, h20, h21⟩
  · rintro ⟨hdup, h1, h2, h3, h4, h5, h6, h7, h8, h9, h10, h11, h12, h13,
      h14, h15, h16, h17, h18, h19, h20, h21⟩
    simp only [Block.deserialize, hdup]
    simp only [h1, h2, h3, h4, h5, h6, h7, h8, h9, h10, h11, h12, h13, h14,
      h15, h16, h17, h18, h19, h20, h21, except_ok_bind]
    rfl

/-! ## Congruence utilities for the field-table decoder -/

theorem find_congr_on_mem {α : Type} (l : List α) (p q : α → Bool)
    (h : ∀ a ∈ l, p a = q a) : l.find? p = l.find? q := by
  induction l with
  | nil => rfl
  | cons a l ih =>
    have ha := h a (by simp)
    simp only [List.find?]
    rw [ha]
    cases q a with
    | true => rfl
    | false => exact ih fun a ha' => h a (by simp [ha'])

theorem getField_cons_ne (k : String) (v : Json) (kvs : List (String × Json))
    (name : String) (h : k ≠ name) :
    getField ((k, v) :: kvs) name = getField kvs name := by
  simp [getField, h]

theorem dupField_cons_unknown (known : List String) (k : String) (v : Json)
    (kvs : List (String × Json)) (hk : k ∉ known) :
    dupField known ((k, v) :: kvs) = dupField known kvs := by
  refine find_congr_on_mem known _ _ fun k' hk' => ?_
  have hne : (k == k') = false := by
    refine beq_eq_false_iff_ne.mpr fun hkk => ?_
    exact hk (hkk ▸ hk')
  simp [List.countP_cons, hne]

theorem reqFieldD_congr {α : Type} (kvs1 kvs2 : List (String × Json))
    (name : String) (d : Json → Except DecodeError α)
    (h : getField kvs1 name = getField kvs2 name) :
    reqFieldD kvs1 name d = reqFieldD kvs2 name d := by
  simp [reqFieldD, h]

theorem optFieldD_congr {α : Type} (kvs1 kvs2 : List (String × Json))
    (name : String) (d : Json → Except DecodeError α)
    (h : getField kvs1 name = getField kvs2 name) :
    optFieldD kvs1 name d = optFieldD kvs2 name d := by
  simp [optFieldD, h]

theorem defFieldD_congr {α : Type} (kvs1 kvs2 : List (String × Json))
    (name : String) (d : Json → Except DecodeError α) (dflt : α)
    (h : getField kvs1 name = getField kvs2 name) :
    defFieldD kvs1 name d dflt = defFieldD kvs2 name d dflt := by
  simp [defFieldD, h]

/-- The default-configuration decode depends on the input object only
through the duplicate test and the values at its 21 known wire keys. -/
theorem Block.deserialize_congr {TX : Type} (dTX : Json → Except DecodeError TX)
    (kvs1 kvs2 : List (String × Json))
    (hdup : dupField knownBlockKeys kvs1 = dupField knownBlockKeys kvs2)
    (hget : ∀ name ∈ knownBlockKeys, getField kvs1 name = getField kvs2 name) :
    Block.deserialize dTX (.obj kvs1) = Block.deserialize dTX (.obj kvs2) := by
  have e1 := optFieldD_congr kvs1 kvs2 "hash" decH256 (hget _ (by decide))
  have e2 := reqFieldD_congr kvs1 kvs2 "parentHash" decH256 (hget _ (by decide))
  have e3 := reqFieldD_congr kvs1 kvs2 "sha3Uncles" decH256 (hget _ (by decide))
  have e4 := reqFieldD_congr kvs1 kvs2 "miner" decAddress (hget _ (by decide))
  have e5 := reqFieldD_congr kvs1 kvs2 "stateRoot" decH256 (hget _ (by decide))
  have e6 := reqFieldD_congr kvs1 kvs2 "transactionsRoot" decH256 (hget _ (by decide))
  have e7 := reqFieldD_congr kvs1 kvs2 "receiptsRoot" decH256 (hget _ (by decide))
  have e8 := optFieldD_congr kvs1 kvs2 "number" decU64 (hget _ (by decide))
  have e9 := reqFieldD_congr kvs1 kvs2 "gasUsed" decU256 (hget _ (by decide))
  have e10 := reqFieldD_congr kvs1 kvs2 "gasLimit" decU256 (hget _ (by decide))
  have e11 := reqFieldD_congr kvs1 kvs2 "extraData" decBytes (hget _ (by decide))
  have e12 := optFieldD_congr kvs1 kvs2 "logsBloom" decBloom (hget _ (by decide))
  have e13 := reqFieldD_congr kvs1 kvs2 "timestamp" decU256 (hget _ (by decide))
  have e14 := reqFieldD_congr kvs1 kvs2 "difficulty" decU256 (hget _ (by decide))
  have e15 := optFieldD_congr kvs1 kvs2 "totalDifficulty" decU256 (hget _ (by decide))
  have e16 := defFieldD_congr kvs1 kvs2 "sealFields" (decListOf decBytes) [] (hget _ (by decide))
  have e17 := reqFieldD_congr kvs1 kvs2 "uncles" (decListOf decH256) (hget _ (by decide))
  have e18 := reqFieldD_congr kvs1 kvs2 "transactions" (decListOf dTX) (hget _ (by decide))
  have e19 := optFieldD_congr kvs1 kvs2 "size" decU256 (hget _ (by decide))
  have e20 := optFieldD_congr kvs1 kvs2 "mixHash" decH256 (hget _ (by decide))
  have e21 := optFieldD_congr kvs1 kvs2 "nonce" decU64 (hget _ (by decide))
  simp only [Block.deserialize, hdup, e1, e2, e3, e4, e5, e6, e7, e8, e9,
    e10, e11, e12, e13, e14, e15, e16, e17, e18, e19, e20, e21]

/-- Prepending a wire field the default configuration does not know
leaves its decode unchanged (serde ignores unknown fields). -/
theorem Block.deserialize_cons_unknown {TX : Type}
    (dTX : Json → Except DecodeError TX) (k : String) (v : Json)
    (kvs : List (String × Json)) (hk : k ∉ knownBlockKeys) :
    Block.deserialize dTX (.obj ((k, v) :: kvs)) =
      Block.deserialize dTX (.obj kvs) := by
  refine Block.deserialize_congr dTX _ _
    (dupField_cons_unknown _ _ _ _ hk) fun name hname => ?_
  refine getField_cons_ne k v kvs name fun hkn => ?_
  exact hk (hkn ▸ hname)

/-- Dropping every binding of one key from a JSON object's field list. -/
def eraseKey (name : String) (kvs : List (String × Json)) : List (String × Json) :=
  kvs.filter fun p => !(p.1 == name)

theorem getField_eraseKey (name : String) (kvs : List (String × Json))
    (n : String) :
    getField (eraseKey name kvs) n = if n = name then none else getField kvs n := by
  simp only [eraseKey]
  induction kvs with
  | nil => simp [getField]
  | cons p rest ih =>
    rw [List.filter_cons]
    by_cases hp : p.1 = name
    · rw [if_neg (by simp [hp])]
      rw [ih]
      by_cases hn : n = name
      · simp [hn]
      · have hpn : p.1 ≠ n := fun hc => hn (hc ▸ hp)
        simp [hn, getField, hpn]
    · rw [if_pos (by simp [hp])]
      by_cases hpn : p.1 = n
      · have hn : ¬ n = name := fun hc => hp (hpn.trans hc)
        simp [getField, hpn, hn]
      · simp only [getField, hpn, if_false]
        rw [ih]

theorem dupField_eraseKey_none (known : List String) (name : String)
    (kvs : List (String × Json)) (h : dupField known kvs = none) :
    dupField known (eraseKey name kvs) = none := by
  simp only [dupField] at h ⊢
  rw [List.find?_eq_none] at h ⊢
  intro k hk
  have hcount : (eraseKey name kvs).countP (fun p => p.1 == k) ≤
      kvs.countP (fun p => p.1 == k) := by
    unfold eraseKey
    rw [List.countP_filter]
    exact List.countP_mono_left fun a _ hpa => by
      simp only [Bool.and_eq_true] at hpa
      exact hpa.1
  have := h k hk
  simp only [decide_eq_true_eq] at this ⊢
  omega

/-! ## Inversion of the field extractors -/

theorem reqFieldD_ok {α : Type} {kvs : List (String × Json)} {name : String}
    {d : Json → Except DecodeError α} {x : α} (h : reqFieldD kvs name d = .ok x) :
    ∃ v, getField kvs name = some v ∧ d v = .ok x := by
  unfold reqFieldD at h
  cases hg : getField kvs name with
  | none => rw [hg] at h; simp at h
  | some v => rw [hg] at h; exact ⟨v, rfl, h⟩

theorem optFieldD_ok {α : Type} {kvs : List (String × Json)} {name : String}
    {d : Json → Except DecodeError α} {x : Option α}
    (h : optFieldD kvs name d = .ok x) :
    (getField kvs name = none ∧ x = none) ∨
      ∃ v, getField kvs name = some v ∧ decOptVal d v = .ok x := by
  unfold optFieldD at h
  cases hg : getField kvs name with
  | none => rw [hg] at h; exact Or.inl ⟨rfl, by simpa using h.symm⟩
  | some v => rw [hg] at h; exact Or.inr ⟨v, rfl, h⟩

theorem reqFieldD_absent {α : Type} (kvs : List (String × Json)) (name : String)
    (d : Json → Except DecodeError α) (h : getField kvs name = none) :
    reqFieldD kvs name d = .error (.missingField name) := by
  simp [reqFieldD, h]

theorem defFieldD_absent {α : Type} (kvs : List (String × Json)) (name : String)
    (d : Json → Except DecodeError α) (dflt : α) (h : getField kvs name = none) :
    defFieldD kvs name d dflt = .ok dflt := by
  simp [defFieldD, h]

/-! ## Objects that differ only in the transactions value -/

/-- Two field lists with the same keys in the same order whose values
agree except possibly at the `"transactions"` key. -/
def SameExceptTx (kvs1 kvs2 : List (String × Json)) : Prop :=
  List.Forall₂ (fun p q => p.1 = q.1 ∧ (p.1 ≠ "transactions" → p.2 = q.2)) kvs1 kvs2

theorem SameExceptTx.keys_eq {kvs1 kvs2 : List (String × Json)}
    (h : SameExceptTx kvs1 kvs2) : kvs1.map Prod.fst = kvs2.map Prod.fst := by
  induction h with
  | nil => rfl
  | @cons p q l1 l2 hpq _ ih => simp [hpq.1, ih]

theorem SameExceptTx.getField_eq {kvs1 kvs2 : List (String × Json)}
    (h : SameExceptTx kvs1 kvs2) (name : String) (hn : name ≠ "transactions") :
    getField kvs1 name = getField kvs2 name := by
  induction h with
  | nil => rfl
  | @cons p q l1 l2 hpq _ ih =>
    obtain ⟨hk, hv⟩ := hpq
    simp only [getField]
    by_cases hp : p.1 = name
    · have hq : q.1 = name := by rw [← hk]; exact hp
      have hval : p.2 = q.2 := hv (by rw [hp]; exact hn)
      rw [if_pos hp, if_pos hq, hval]
    · have hq : ¬ q.1 = name := by rw [← hk]; exact hp
      rw [if_neg hp, if_neg hq]
      exact ih

theorem dupField_congr_keys (known : List String)
    (kvs1 kvs2 : List (String × Json))
    (h : kvs1.map Prod.fst = kvs2.map Prod.fst) :
    dupField known kvs1 = dupField known kvs2 := by
  refine find_congr_on_mem known _ _ fun k _ => ?_
  have h1 : kvs1.countP (fun p => p.1 == k) =
      (kvs1.map Prod.fst).countP (fun s => s == k) :=
    (List.countP_map (fun s => s == k) Prod.fst kvs1).symm
  have h2 : kvs2.countP (fun p => p.1 == k) =
      (kvs2.map Prod.fst).countP (fun s => s == k) :=
    (List.countP_map (fun s => s == k) Prod.fst kvs2).symm
  rw [h1, h2, h]

/-! ## Claims -/

theorem hexQuantityStr_data (n : Nat) :
    (hexQuantityStr n).data = '0' :: 'x' :: natToHex n := by
  simp [hexQuantityStr, String.data_append]

/-- C1: the `BlockId` encode matches the reference definition on both
variants: `Hash h` serializes to a JSON object with exactly one key
`"blockHash"` whose value is the lowercase 0x-prefixed hex of `h` (not a
bare string), and `Number n` serializes to exactly the same JSON value as
serializing `n` directly (which is a bare JSON string, not an object). -/
theorem C1_blockId_encode :
    (∀ x : H256,
      BlockId.serialize (.Hash x) =
          .obj [("blockHash", .str (h256DebugStr x))] ∧
        h256DebugStr x = "0x" ++ String.mk (toHexFixed 64 x.val) ∧
        parse0xFixed 64 (h256DebugStr x) = some x.val ∧
        (toHexFixed 64 x.val).all isLowerHexDigit = true) ∧
    (∀ n : BlockNumber, BlockId.serialize (.Number n) = BlockNumber.serialize n) ∧
    (∀ n : BlockNumber, ∃ s, BlockNumber.serialize n = .str s) := by
  refine ⟨fun x => ⟨rfl, rfl, ?_, toHexFixed_all_lower 64 x.val⟩,
    fun n => rfl, fun n => ?_⟩
  · have hb : x.val < 16 ^ 64 := by
      have h1 : (16 : Nat) ^ 64 = 2 ^ 256 := by
        rw [show (16 : Nat) = 2 ^ 4 from rfl, ← Nat.pow_mul]
      rw [h1]
      exact x.isLt
    exact parse0xFixed_hexFixedStr 64 x.val hb
  · cases n <;> exact ⟨_, rfl⟩

/-- C2: the `BlockNumber` encode matches the reference definition on all
four variants: `Number h` serializes to a lowercase, minimal-width
(no leading zeros) 0x-prefixed hex-quantity JSON string, and `Latest`,
`Earliest`, `Pending` serialize to exactly the JSON strings `"latest"`,
`"earliest"`, `"pending"`, never to a hex string. -/
theorem C2_blockNumber_encode :
    (∀ h : U64, BlockNumber.serialize (.Number h) =
        .str ("0x" ++ String.mk (natToHex h.val))) ∧
    (∀ h : U64, (natToHex h.val).all isLowerHexDigit = true) ∧
    (∀ h : U64, h.val ≠ 0 → (natToHex h.val).head? ≠ some '0') ∧
    natToHex 0 = ['0'] ∧
    BlockNumber.serialize .Latest = .str "latest" ∧
    BlockNumber.serialize .Earliest = .str "earliest" ∧
    BlockNumber.serialize .Pending = .str "pending" ∧
    (∀ m : Nat, "latest" ≠ hexQuantityStr m) ∧
    (∀ m : Nat, "earliest" ≠ hexQuantityStr m) ∧
    (∀ m : Nat, "pending" ≠ hexQuantityStr m) := by
  refine ⟨fun h => rfl, fun h => natToHex_all_lower h.val,
    fun h => natToHex_head_ne_zero h.val, by decide, rfl, rfl, rfl,
    fun m hc => ?_, fun m hc => ?_, fun m hc => ?_⟩ <;>
  · have hd := congrArg String.data hc
    rw [hexQuantityStr_data] at hd
    simp at hd

/-- C2 witness: height 3 encodes to the bare string `"0x3"` with a
nonzero leading digit, and height 0 to `"0x0"`. -/
theorem C2_blockNumber_encode_witness :
    BlockNumber.serialize (.Number ⟨3, by norm_num⟩) = .str "0x3" ∧
    (natToHex 3).head? ≠ some '0' ∧
    BlockNumber.serialize (.Number ⟨0, by norm_num⟩) = .str "0x0" := by
  refine ⟨?_, C2_blockNumber_encode.2.2.1 ⟨3, by norm_num⟩ (by decide), ?_⟩
  · rw [C2_blockNumber_encode.1 ⟨3, by norm_num⟩]
    rfl
  · rw [C2_blockNumber_encode.1 ⟨0, by norm_num⟩]
    rfl

/-- C8: encode-then-decode of the hex-quantity string is the identity on
every height (the external `U64` quantity decode is modelled from the
spec: any 0x-prefixed hex digit string whose value fits, including
`"0x0"`). -/
theorem C8_quantity_roundtrip :
    (∀ h : U64, decU64 (BlockNumber.serialize (.Number h)) = .ok h) ∧
    (∀ cs : List Char, cs ≠ [] →
        cs.all (fun c => (hexCharVal c).isSome) = true →
        ∃ n, parse0x ("0x" ++ String.mk cs) = some n) ∧
    parse0x "0x0" = some 0 := by
  refine ⟨fun h => decQuantity_encQuantity 64 "U64" h,
    fun cs hne hall => ?_, by decide⟩
  obtain ⟨n, hn⟩ := parseHexAux_total cs 0 hall
  have hdata : ("0x" ++ String.mk cs).data = '0' :: 'x' :: cs := by
    simp [String.data_append]
  exact ⟨n, by simp [parse0x, hdata, hne, hn]⟩

/-- C8 witness: the round trip at heights 0, 1 and a 15-hex-digit value,
and acceptance of a zero-padded hex string. -/
theorem C8_quantity_roundtrip_witness :
    decU64 (BlockNumber.serialize (.Number ⟨0, by norm_num⟩)) =
        .ok ⟨0, by norm_num⟩ ∧
    decU64 (BlockNumber.serialize (.Number ⟨1, by norm_num⟩)) =
        .ok ⟨1, by norm_num⟩ ∧
    decU64 (BlockNumber.serialize (.Number ⟨0x123456789abcdef, by norm_num⟩)) =
        .ok ⟨0x123456789abcdef, by norm_num⟩ ∧
    (∃ n, parse0x ("0x" ++ String.mk ['0', '0', 'a']) = some n) :=
  ⟨C8_quantity_roundtrip.1 _, C8_quantity_roundtrip.1 _,
    C8_quantity_roundtrip.1 _,
    C8_quantity_roundtrip.2.1 ['0', '0', 'a'] (by decide) (by decide)⟩

/-- C9: every conversion from a plain 64-bit integer or the sized-integer
primitive yields the height variant (never a symbolic tag), converting 5
gives `BlockId.Number (BlockNumber.Number 5)`, and converting a hash gives
`BlockId.Hash` of that hash. -/
theorem C9_conversions :
    (∀ n : Fin (2 ^ 64), BlockId.from_u64 n = .Number (.Number n)) ∧
    (∀ n : U64, BlockId.from_U64 n = .Number (.Number n)) ∧
    (∀ n : U64, BlockNumber.from_U64 n = .Number n) ∧
    (∀ bn : BlockNumber, BlockId.from_BlockNumber bn = .Number bn) ∧
    (∀ x : H256, BlockId.from_H256 x = .Hash x) ∧
    BlockId.from_u64 ⟨5, by norm_num⟩ = .Number (.Number ⟨5, by norm_num⟩) ∧
    (∀ n : U64, BlockNumber.from_U64 n ≠ .Latest ∧
      BlockNumber.from_U64 n ≠ .Earliest ∧ BlockNumber.from_U64 n ≠ .Pending) :=
  ⟨fun n => rfl, fun n => rfl, fun n => rfl, fun bn => rfl, fun x => rfl, rfl,
    fun n => ⟨by simp [BlockNumber.from_U64], by simp [BlockNumber.from_U64],
      by simp [BlockNumber.from_U64]⟩⟩

/-! ## Further decoder utilities -/

theorem dupField_of_nodup_keys (known : List String)
    (kvs : List (String × Json)) (h : (kvs.map Prod.fst).Nodup) :
    dupField known kvs = none := by
  rw [dupField, List.find?_eq_none]
  intro k _
  simp only [decide_eq_true_eq]
  intro hc
  have h1 : kvs.countP (fun p => p.1 == k) =
      (kvs.map Prod.fst).countP (fun s => s == k) :=
    (List.countP_map (fun s => s == k) Prod.fst kvs).symm
  have h2 : (kvs.map Prod.fst).countP (fun s => s == k) =
      (kvs.map Prod.fst).count k := rfl
  have h3 : (kvs.map Prod.fst).count k ≤ 1 :=
    List.nodup_iff_count_le_one.mp h k
  omega

theorem errValue_exists {ε α : Type} (x : Except ε α)
    (hne : ∀ a, x ≠ .ok a) : ∃ e, x = .error e := by
  cases hx : x with
  | ok a => exact (hne a hx).elim
  | error e => exact ⟨e, rfl⟩

theorem mapM_ok_of_mem {α β : Type} {d : α → Except DecodeError β}
    {l : List α} {out : List β} (h : l.mapM d = .ok out) :
    ∀ e ∈ l, ∃ y, d e = .ok y := by
  induction l generalizing out with
  | nil => intro e he; cases he
  | cons x xs ih =>
    intro e he
    rw [List.mapM_cons] at h
    rw [except_bind_ok] at h
    obtain ⟨y, hy, h⟩ := h
    rw [except_bind_ok] at h
    obtain ⟨ys, hys, _⟩ := h
    rcases List.mem_cons.mp he with rfl | hmem
    · exact ⟨y, hy⟩
    · exact ih hys e hmem

theorem reqFieldD_present {α : Type} {kvs : List (String × Json)}
    {name : String} {v : Json} (d : Json → Except DecodeError α)
    (h : getField kvs name = some v) : reqFieldD kvs name d = d v := by
  simp [reqFieldD, h]

theorem optFieldD_present {α : Type} {kvs : List (String × Json)}
    {name : String} {v : Json} (d : Json → Except DecodeError α)
    (h : getField kvs name = some v) : optFieldD kvs name d = decOptVal d v := by
  simp [optFieldD, h]

theorem defFieldD_present {α : Type} {kvs : List (String × Json)}
    {name : String} {v : Json} (d : Json → Except DecodeError α) (dflt : α)
    (h : getField kvs name = some v) : defFieldD kvs name d dflt = d v := by
  simp [defFieldD, h]

/-- Did the decode succeed? -/
def isOkE {α : Type} : Except DecodeError α → Bool
  | .ok _ => true
  | .error _ => false

theorem isOkE_of_eq_ok {α : Type} {x : Except DecodeError α} {a : α}
    (h : x = .ok a) : isOkE x = true := by rw [h]; rfl

theorem encH256_ne_null (x : H256) : encH256 x ≠ .null := by
  simp [encH256, encFixed]

theorem encU64_ne_null (x : U64) : encU64 x ≠ .null := by
  simp [encU64, encQuantity]

theorem encU256_ne_null (x : U256) : encU256 x ≠ .null := by
  simp [encU256, encQuantity]

theorem encBloom_ne_null (x : Bloom) : encBloom x ≠ .null := by
  simp [encBloom, encFixed]

/-- If a required field's wire key is absent, the default-configuration
decode cannot succeed. -/
theorem deserialize_err_of_required_absent {TX : Type}
    (dTX : Json → Except DecodeError TX) (kvs : List (String × Json))
    (name : String) (hmem : name ∈ requiredBlockKeys)
    (habs : getField kvs name = none) :
    ∀ b, Block.deserialize dTX (.obj kvs) ≠ .ok b := by
  intro b hok
  rw [Block.deserialize_obj_ok] at hok
  fin_cases hmem <;>
    (rw [reqFieldD_absent _ _ _ habs] at hok; simp at hok)

/-- The `celo`-configuration decode depends on the input object only
through the duplicate test and the values at its 16 known wire keys. -/
theorem blockCelo_deserialize_congr {TX : Type}
    (dTX : Json → Except DecodeError TX) (kvs1 kvs2 : List (String × Json))
    (hdup : dupField knownBlockCeloKeys kvs1 = dupField knownBlockCeloKeys kvs2)
    (hget : ∀ name ∈ knownBlockCeloKeys, getField kvs1 name = getField kvs2 name) :
    BlockCelo.deserialize dTX (.obj kvs1) = BlockCelo.deserialize dTX (.obj kvs2) := by
  have e1 := optFieldD_congr kvs1 kvs2 "hash" decH256 (hget _ (by decide))
  have e2 := reqFieldD_congr kvs1 kvs2 "parentHash" decH256 (hget _ (by decide))
  have e3 := reqFieldD_congr kvs1 kvs2 "miner" decAddress (hget _ (by decide))
  have e4 := reqFieldD_congr kvs1 kvs2 "stateRoot" decH256 (hget _ (by decide))
  have e5 := reqFieldD_congr kvs1 kvs2 "transactionsRoot" decH256 (hget _ (by decide))
  have e6 := reqFieldD_congr kvs1 kvs2 "receiptsRoot" decH256 (hget _ (by decide))
  have e7 := optFieldD_congr kvs1 kvs2 "number" decU64 (hget _ (by decide))
  have e8 := reqFieldD_congr kvs1 kvs2 "gasUsed" decU256 (hget _ (by decide))
  have e9 := reqFieldD_congr kvs1 kvs2 "extraData" decBytes (hget _ (by decide))
  have e10 := optFieldD_congr kvs1 kvs2 "logsBloom" decBloom (hget _ (by decide))
  have e11 := reqFieldD_congr kvs1 kvs2 "timestamp" decU256 (hget _ (by decide))
  have e12 := optFieldD_congr kvs1 kvs2 "totalDifficulty" decU256 (hget _ (by decide))
  have e13 := defFieldD_congr kvs1 kvs2 "sealFields" (decListOf decBytes) [] (hget _ (by decide))
  have e14 := reqFieldD_congr kvs1 kvs2 "transactions" (decListOf dTX) (hget _ (by decide))
  have e15 := optFieldD_congr kvs1 kvs2 "size" decU256 (hget _ (by decide))
  have e16 := reqFieldD_congr kvs1 kvs2 "randomness" Randomness.deserialize (hget _ (by decide))
  simp only [BlockCelo.deserialize, hdup, e1, e2, e3, e4, e5, e6, e7, e8,
    e9, e10, e11, e12, e13, e14, e15, e16]

/-- Prepending a wire field the `celo` configuration does not know leaves
its decode unchanged (serde ignores unknown fields). -/
theorem blockCelo_deserialize_cons_unknown {TX : Type}
    (dTX : Json → Except DecodeError TX) (k : String) (v : Json)
    (kvs : List (String × Json)) (hk : k ∉ knownBlockCeloKeys) :
    BlockCelo.deserialize dTX (.obj ((k, v) :: kvs)) =
      BlockCelo.deserialize dTX (.obj kvs) := by
  refine blockCelo_deserialize_congr dTX _ _
    (dupField_cons_unknown _ _ _ _ hk) fun name hname => ?_
  refine getField_cons_ne k v kvs name fun hkn => ?_
  exact hk (hkn ▸ hname)

/-- Whether a present wire value decodes at the semantic type the default
configuration expects for that key (`true` for keys it does not know). -/
def blockFieldOk {TX : Type} (dTX : Json → Except DecodeError TX) :
    String → Json → Bool
  | "hash", v => isOkE (decOptVal decH256 v)
  | "parentHash", v => isOkE (decH256 v)
  | "sha3Uncles", v => isOkE (decH256 v)
  | "miner", v => isOkE (decAddress v)
  | "stateRoot", v => isOkE (decH256 v)
  | "transactionsRoot", v => isOkE (decH256 v)
  | "receiptsRoot", v => isOkE (decH256 v)
  | "number", v => isOkE (decOptVal decU64 v)
  | "gasUsed", v => isOkE (decU256 v)
  | "gasLimit", v => isOkE (decU256 v)
  | "extraData", v => isOkE (decBytes v)
  | "logsBloom", v => isOkE (decOptVal decBloom v)
  | "timestamp", v => isOkE (decU256 v)
  | "difficulty", v => isOkE (decU256 v)
  | "totalDifficulty", v => isOkE (decOptVal decU256 v)
  | "sealFields", v => isOkE (decListOf decBytes v)
  | "uncles", v => isOkE (decListOf decH256 v)
  | "transactions", v => isOkE (decListOf dTX v)
  | "size", v => isOkE (decOptVal decU256 v)
  | "mixHash", v => isOkE (decOptVal decH256 v)
  | "nonce", v => isOkE (decOptVal decU64 v)
  | _, _ => true

/-! ## Concrete sample inputs -/

/-- A well-formed default-configuration block object (transaction hashes
as elements). -/
def sampleKvs : List (String × Json) :=
  [("parentHash", Json.str "0x0000000000000000000000000000000000000000000000000000000000000001"),
   ("sha3Uncles", Json.str "0x0000000000000000000000000000000000000000000000000000000000000002"),
   ("miner", Json.str "0x0000000000000000000000000000000000000003"),
   ("stateRoot", Json.str "0x0000000000000000000000000000000000000000000000000000000000000004"),
   ("transactionsRoot", Json.str "0x0000000000000000000000000000000000000000000000000000000000000005"),
   ("receiptsRoot", Json.str "0x0000000000000000000000000000000000000000000000000000000000000006"),
   ("number", Json.str "0x3"),
   ("gasUsed", Json.str "0x5208"),
   ("gasLimit", Json.str "0x6691b7"),
   ("extraData", Json.str "0x"),
   ("timestamp", Json.str "0x5ecedbb9"),
   ("difficulty", Json.str "0x0"),
   ("sealFields", Json.arr [Json.str "0x01"]),
   ("uncles", Json.arr []),
   ("transactions", Json.arr [Json.str "0x0000000000000000000000000000000000000000000000000000000000000007"])]

/-- The block `sampleKvs` decodes to. -/
def sampleBlock : Block H256 :=
  { hash := none,
     parent_hash := ⟨1, by norm_num⟩,
     uncles_hash := ⟨2, by norm_num⟩,
     author := ⟨3, by norm_num⟩,
     state_root := ⟨4, by norm_num⟩,
     transactions_root := ⟨5, by norm_num⟩,
     receipts_root := ⟨6, by norm_num⟩,
     number := some ⟨3, by norm_num⟩,
     gas_used := ⟨0x5208, by norm_num⟩,
     gas_limit := ⟨0x6691b7, by norm_num⟩,
     extra_data := [],
     logs_bloom := none,
     timestamp := ⟨0x5ecedbb9, by norm_num⟩,
     difficulty := ⟨0, by norm_num⟩,
     total_difficulty := none,
     seal_fields := [[⟨1, by norm_num⟩]],
     uncles := [],
     transactions := [⟨7, by norm_num⟩],
     size := none,
     mix_hash := none,
     nonce := none }

theorem sample_decode_ok :
    Block.deserialize decH256 (Json.obj sampleKvs) = .ok sampleBlock := rfl

/-- `sampleKvs` with the transactions value replaced by byte-string
elements (standing for a richer transaction representation). -/
def sampleKvs2 : List (String × Json) :=
  [("parentHash", Json.str "0x0000000000000000000000000000000000000000000000000000000000000001"),
   ("sha3Uncles", Json.str "0x0000000000000000000000000000000000000000000000000000000000000002"),
   ("miner", Json.str "0x0000000000000000000000000000000000000003"),
   ("stateRoot", Json.str "0x0000000000000000000000000000000000000000000000000000000000000004"),
   ("transactionsRoot", Json.str "0x0000000000000000000000000000000000000000000000000000000000000005"),
   ("receiptsRoot", Json.str "0x0000000000000000000000000000000000000000000000000000000000000006"),
   ("number", Json.str "0x3"),
   ("gasUsed", Json.str "0x5208"),
   ("gasLimit", Json.str "0x6691b7"),
   ("extraData", Json.str "0x"),
   ("timestamp", Json.str "0x5ecedbb9"),
   ("difficulty", Json.str "0x0"),
   ("sealFields", Json.arr [Json.str "0x01"]),
   ("uncles", Json.arr []),
   ("transactions", Json.arr [Json.str "0x0102"])]

theorem sample_sameExceptTx : SameExceptTx sampleKvs sampleKvs2 := by
  unfold SameExceptTx sampleKvs sampleKvs2
  exact .cons ⟨rfl, fun _ => rfl⟩ (.cons ⟨rfl, fun _ => rfl⟩
    (.cons ⟨rfl, fun _ => rfl⟩ (.cons ⟨rfl, fun _ => rfl⟩
    (.cons ⟨rfl, fun _ => rfl⟩ (.cons ⟨rfl, fun _ => rfl⟩
    (.cons ⟨rfl, fun _ => rfl⟩ (.cons ⟨rfl, fun _ => rfl⟩
    (.cons ⟨rfl, fun _ => rfl⟩ (.cons ⟨rfl, fun _ => rfl⟩
    (.cons ⟨rfl, fun _ => rfl⟩ (.cons ⟨rfl, fun _ => rfl⟩
    (.cons ⟨rfl, fun _ => rfl⟩ (.cons ⟨rfl, fun _ => rfl⟩
    (.cons ⟨rfl, fun hne => absurd rfl hne⟩ .nil))))))))))))))

theorem sample2_txs :
    reqFieldD sampleKvs2 "transactions" (decListOf decBytes) =
      .ok [[⟨1, by norm_num⟩, ⟨2, by norm_num⟩]] := rfl

/-- A well-formed `celo`-configuration block object (with the required
`randomness` record and without the default-only fields). -/
def celoKvs : List (String × Json) :=
  [("hash", Json.str "0x0000000000000000000000000000000000000000000000000000000000000008"),
   ("parentHash", Json.str "0x0000000000000000000000000000000000000000000000000000000000000001"),
   ("miner", Json.str "0x0000000000000000000000000000000000000003"),
   ("stateRoot", Json.str "0x0000000000000000000000000000000000000000000000000000000000000004"),
   ("transactionsRoot", Json.str "0x0000000000000000000000000000000000000000000000000000000000000005"),
   ("receiptsRoot", Json.str "0x0000000000000000000000000000000000000000000000000000000000000006"),
   ("number", Json.str "0x1b4"),
   ("gasUsed", Json.str "0xbef6"),
   ("extraData", Json.str "0x"),
   ("timestamp", Json.str "0x5e90166d"),
   ("totalDifficulty", Json.str "0x1b5"),
   ("transactions", Json.arr [Json.str "0x0000000000000000000000000000000000000000000000000000000000000007"]),
   ("size", Json.str "0x3a0"),
   ("randomness", Json.obj
     [("committed", Json.str "0x0102"), ("revealed", Json.str "0x0304")])]

/-- The block `celoKvs` decodes to under the `celo` configuration. -/
def celoBlock : BlockCelo H256 :=
  { hash := some ⟨8, by norm_num⟩,
     parent_hash := ⟨1, by norm_num⟩,
     author := ⟨3, by norm_num⟩,
     state_root := ⟨4, by norm_num⟩,
     transactions_root := ⟨5, by norm_num⟩,
     receipts_root := ⟨6, by norm_num⟩,
     number := some ⟨0x1b4, by norm_num⟩,
     gas_used := ⟨0xbef6, by norm_num⟩,
     extra_data := [],
     logs_bloom := none,
     timestamp := ⟨0x5e90166d, by norm_num⟩,
     total_difficulty := some ⟨0x1b5, by norm_num⟩,
     seal_fields := [],
     transactions := [⟨7, by norm_num⟩],
     size := some ⟨0x3a0, by norm_num⟩,
     randomness :=
       { committed := [⟨1, by norm_num⟩, ⟨2, by norm_num⟩],
          revealed := [⟨3, by norm_num⟩, ⟨4, by norm_num⟩] } }

/-- C3: the decoder applies the fixed wire-to-semantic renaming — in any
successful default-configuration decode, `uncles_hash` is populated from
the wire key `"sha3Uncles"`, `author` from `"miner"`, `gas_used` from
`"gasUsed"`, `receipts_root` from `"receiptsRoot"` and `mix_hash` from
`"mixHash"`; and the semantic snake_case names are not accepted as wire
keys for these fields (a binding under such a name is ignored). -/
theorem C3_wire_renaming :
    (∀ (TX : Type) (dTX : Json → Except DecodeError TX)
        (kvs : List (String × Json)) (b : Block TX),
      Block.deserialize dTX (.obj kvs) = .ok b →
        (∃ v, getField kvs "sha3Uncles" = some v ∧ decH256 v = .ok b.uncles_hash) ∧
        (∃ v, getField kvs "miner" = some v ∧ decAddress v = .ok b.author) ∧
        (∃ v, getField kvs "gasUsed" = some v ∧ decU256 v = .ok b.gas_used) ∧
        (∃ v, getField kvs "receiptsRoot" = some v ∧ decH256 v = .ok b.receipts_root) ∧
        ((getField kvs "mixHash" = none ∧ b.mix_hash = none) ∨
          (∃ v, getField kvs "mixHash" = some v ∧
            decOptVal decH256 v = .ok b.mix_hash))) ∧
    (∀ (TX : Type) (dTX : Json → Except DecodeError TX) (v : Json)
        (kvs : List (String × Json)),
      Block.deserialize dTX (.obj (("uncles_hash", v) :: kvs)) =
          Block.deserialize dTX (.obj kvs) ∧
      Block.deserialize dTX (.obj (("author", v) :: kvs)) =
          Block.deserialize dTX (.obj kvs) ∧
      Block.deserialize dTX (.obj (("gas_used", v) :: kvs)) =
          Block.deserialize dTX (.obj kvs) ∧
      Block.deserialize dTX (.obj (("receipts_root", v) :: kvs)) =
          Block.deserialize dTX (.obj kvs) ∧
      Block.deserialize dTX (.obj (("mix_hash", v) :: kvs)) =
          Block.deserialize dTX (.obj kvs)) := by
  constructor
  · intro TX dTX kvs b h
    rw [Block.deserialize_obj_ok] at h
    obtain ⟨-, -, -, hsha, hminer, -, -, hrcpt, -, hgas, -, -, -, -, -, -, -,
      -, -, -, hmix, -⟩ := h
    exact ⟨reqFieldD_ok hsha, reqFieldD_ok hminer, reqFieldD_ok hgas,
      reqFieldD_ok hrcpt, optFieldD_ok hmix⟩
  · intro TX dTX v kvs
    exact ⟨Block.deserialize_cons_unknown dTX _ v kvs (by decide),
      Block.deserialize_cons_unknown dTX _ v kvs (by decide),
      Block.deserialize_cons_unknown dTX _ v kvs (by decide),
      Block.deserialize_cons_unknown dTX _ v kvs (by decide),
      Block.deserialize_cons_unknown dTX _ v kvs (by decide)⟩

/-- C3 witness: in the decoded sample object, `uncles_hash` comes from the
wire key `"sha3Uncles"`. -/
theorem C3_wire_renaming_witness :
    ∃ v, getField sampleKvs "sha3Uncles" = some v ∧
      decH256 v = .ok sampleBlock.uncles_hash :=
  (C3_wire_renaming.1 H256 decH256 sampleKvs sampleBlock sample_decode_ok).1

/-- C4: decoding is all-or-nothing — if a field required by the default
configuration is absent, or a present known field's wire value does not
decode at its expected semantic type, or any element of `transactions`
fails to decode, the whole decode returns a structured error (there is no
partial block: the result is an `error`, never an `ok`). -/
theorem C4_decode_failures :
    ∀ (TX : Type) (dTX : Json → Except DecodeError TX)
      (kvs : List (String × Json)),
      ((∃ name, name ∈ requiredBlockKeys ∧ getField kvs name = none) ∨
       (∃ name v, name ∈ knownBlockKeys ∧ getField kvs name = some v ∧
          blockFieldOk dTX name v = false) ∨
       (∃ elems e, getField kvs "transactions" = some (.arr elems) ∧
          e ∈ elems ∧ isOkE (dTX e) = false)) →
      ∃ err, Block.deserialize dTX (.obj kvs) = .error err := by
  intro TX dTX kvs hfail
  refine errValue_exists _ fun b hok => ?_
  rcases hfail with ⟨name, hmem, habs⟩ | ⟨name, v, hmem, hget, hbad⟩ |
    ⟨elems, e, hget, hmem, hbad⟩
  · exact deserialize_err_of_required_absent dTX kvs name hmem habs b hok
  · rw [Block.deserialize_obj_ok] at hok
    obtain ⟨-, k2, k3, k4, k5, k6, k7, k8, k9, k10, k11, k12, k13, k14, k15,
      k16, k17, k18, k19, k20, k21, k22⟩ := hok
    fin_cases hmem
    · have hb2 : isOkE (decOptVal decH256 v) = false := hbad
      rw [optFieldD_present decH256 hget] at k2
      rw [isOkE_of_eq_ok k2] at hb2
      simp at hb2
    · have hb2 : isOkE (decH256 v) = false := hbad
      rw [reqFieldD_present decH256 hget] at k3
      rw [isOkE_of_eq_ok k3] at hb2
      simp at hb2
    · have hb2 : isOkE (decH256 v) = false := hbad
      rw [reqFieldD_present decH256 hget] at k4
      rw [isOkE_of_eq_ok k4] at hb2
      simp at hb2
    · have hb2 : isOkE (decAddress v) = false := hbad
      rw [reqFieldD_present decAddress hget] at k5
      rw [isOkE_of_eq_ok k5] at hb2
      simp at hb2
    · have hb2 : isOkE (decH256 v) = false := hbad
      rw [reqFieldD_present decH256 hget] at k6
      rw [isOkE_of_eq_ok k6] at hb2
      simp at hb2
    · have hb2 : isOkE (decH256 v) = false := hbad
      rw [reqFieldD_present decH256 hget] at k7
      rw [isOkE_of_eq_ok k7] at hb2
      simp at hb2
    · have hb2 : isOkE (decH256 v) = false := hbad
      rw [reqFieldD_present decH256 hget] at k8
      rw [isOkE_of_eq_ok k8] at hb2
      simp at hb2
    · have hb2 : isOkE (decOptVal decU64 v) = false := hbad
      rw [optFieldD_present decU64 hget] at k9
      rw [isOkE_of_eq_ok k9] at hb2
      simp at hb2
    · have hb2 : isOkE (decU256 v) = false := hbad
      rw [reqFieldD_present decU256 hget] at k10
      rw [isOkE_of_eq_ok k10] at hb2
      simp at hb2
    · have hb2 : isOkE (decU256 v) = false := hbad
      rw [reqFieldD_present decU256 hget] at k11
      rw [isOkE_of_eq_ok k11] at hb2
      simp at hb2
    · have hb2 : isOkE (decBytes v) = false := hbad
      rw [reqFieldD_present decBytes hget] at k12
      rw [isOkE_of_eq_ok k12] at hb2
      simp at hb2
    · have hb2 : isOkE (decOptVal decBloom v) = false := hbad
      rw [optFieldD_present decBloom hget] at k13
      rw [isOkE_of_eq_ok k13] at hb2
      simp at hb2
    · have hb2 : isOkE (decU256 v) = false := hbad
      rw [reqFieldD_present decU256 hget] at k14
      rw [isOkE_of_eq_ok k14] at hb2
      simp at hb2
    · have hb2 : isOkE (decU256 v) = false := hbad
      rw [reqFieldD_present decU256 hget] at k15
      rw [isOkE_of_eq_ok k15] at hb2
      simp at hb2
    · have hb2 : isOkE (decOptVal decU256 v) = false := hbad
      rw [optFieldD_present decU256 hget] at k16
      rw [isOkE_of_eq_ok k16] at hb2
      simp at hb2
    · have hb2 : isOkE (decListOf decBytes v) = false := hbad
      rw [defFieldD_present (decListOf decBytes) [] hget] at k17
      rw [isOkE_of_eq_ok k17] at hb2
      simp at hb2
    · have hb2 : isOkE (decListOf decH256 v) = false := hbad
      rw [reqFieldD_present (decListOf decH256) hget] at k18
      rw [isOkE_of_eq_ok k18] at hb2
      simp at hb2
    · have hb2 : isOkE (decListOf dTX v) = false := hbad
      rw [reqFieldD_present (decListOf dTX) hget] at k19
      rw [isOkE_of_eq_ok k19] at hb2
      simp at hb2
    · have hb2 : isOkE (decOptVal decU256 v) = false := hbad
      rw [optFieldD_present decU256 hget] at k20
      rw [isOkE_of_eq_ok k20] at hb2
      simp at hb2
    · have hb2 : isOkE (decOptVal decH256 v) = false := hbad
      rw [optFieldD_present decH256 hget] at k21
      rw [isOkE_of_eq_ok k21] at hb2
      simp at hb2
    · have hb2 : isOkE (decOptVal decU64 v) = false := hbad
      rw [optFieldD_present decU64 hget] at k22
      rw [isOkE_of_eq_ok k22] at hb2
      simp at hb2
  · rw [Block.deserialize_obj_ok] at hok
    obtain ⟨-, -, -, -, -, -, -, -, -, -, -, -, -, -, -, -, -, -, k19, -, -,
      -⟩ := hok
    rw [reqFieldD_present (decListOf dTX) hget] at k19
    simp only [decListOf] at k19
    obtain ⟨y, hy⟩ := mapM_ok_of_mem k19 e hmem
    rw [isOkE_of_eq_ok hy] at hbad
    simp at hbad

/-- C4 witness: the empty object is missing the required `"parentHash"`
key, so decoding it returns an error. -/
theorem C4_decode_failures_witness :
    ∃ err, Block.deserialize decH256 (Json.obj []) = .error err :=
  C4_decode_failures H256 decH256 [] (Or.inl ⟨"parentHash", by decide, rfl⟩)

/-- C5: a decoder configured for one chain variant never merges the two
shapes — each configuration ignores wire fields only the other knows
(`randomness` for the default configuration; `sha3Uncles`, `gasLimit`,
`difficulty`, `uncles` for the `celo` one) — and the well-formed
alternate-variant object `celoKvs` (with `committed`/`revealed` byte
strings under `randomness`) decodes successfully under `celo` rules while
the same object fails under default rules with a missing-field error for
the absent default-only required key `sha3Uncles`. -/
theorem C5_variant_exclusivity :
    (∀ (TX : Type) (dTX : Json → Except DecodeError TX) (v : Json)
        (kvs : List (String × Json)),
      Block.deserialize dTX (.obj (("randomness", v) :: kvs)) =
          Block.deserialize dTX (.obj kvs) ∧
      BlockCelo.deserialize dTX (.obj (("sha3Uncles", v) :: kvs)) =
          BlockCelo.deserialize dTX (.obj kvs) ∧
      BlockCelo.deserialize dTX (.obj (("gasLimit", v) :: kvs)) =
          BlockCelo.deserialize dTX (.obj kvs) ∧
      BlockCelo.deserialize dTX (.obj (("difficulty", v) :: kvs)) =
          BlockCelo.deserialize dTX (.obj kvs) ∧
      BlockCelo.deserialize dTX (.obj (("uncles", v) :: kvs)) =
          BlockCelo.deserialize dTX (.obj kvs)) ∧
    BlockCelo.deserialize decH256 (Json.obj celoKvs) = .ok celoBlock ∧
    Block.deserialize decH256 (Json.obj celoKvs) =
      .error (.missingField "sha3Uncles") := by
  refine ⟨fun TX dTX v kvs =>
    ⟨Block.deserialize_cons_unknown dTX _ v kvs (by decide),
     blockCelo_deserialize_cons_unknown dTX _ v kvs (by decide),
     blockCelo_deserialize_cons_unknown dTX _ v kvs (by decide),
     blockCelo_deserialize_cons_unknown dTX _ v kvs (by decide),
     blockCelo_deserialize_cons_unknown dTX _ v kvs (by decide)⟩, rfl, rfl⟩

/-- C6: block decoding is parametric in the transaction element type — if
two objects agree on every field except the `transactions` value, the
first decodes (with one element decoder) to `b1`, and the second's
`transactions` value decodes with another element decoder to `txs2`, then
the second object decodes to the block with all of `b1`'s fields and
transaction list `txs2`: the decoder never branches on the element
type. -/
theorem C6_parametric_in_tx :
    ∀ (TX1 TX2 : Type) (dTX1 : Json → Except DecodeError TX1)
      (dTX2 : Json → Except DecodeError TX2)
      (kvs1 kvs2 : List (String × Json)) (b1 : Block TX1) (txs2 : List TX2),
      SameExceptTx kvs1 kvs2 →
      Block.deserialize dTX1 (.obj kvs1) = .ok b1 →
      reqFieldD kvs2 "transactions" (decListOf dTX2) = .ok txs2 →
      Block.deserialize dTX2 (.obj kvs2) =
        .ok { hash := b1.hash, parent_hash := b1.parent_hash,
              uncles_hash := b1.uncles_hash, author := b1.author,
              state_root := b1.state_root,
              transactions_root := b1.transactions_root,
              receipts_root := b1.receipts_root, number := b1.number,
              gas_used := b1.gas_used, gas_limit := b1.gas_limit,
              extra_data := b1.extra_data, logs_bloom := b1.logs_bloom,
              timestamp := b1.timestamp, difficulty := b1.difficulty,
              total_difficulty := b1.total_difficulty,
              seal_fields := b1.seal_fields, uncles := b1.uncles,
              transactions := txs2, size := b1.size,
              mix_hash := b1.mix_hash, nonce := b1.nonce } := by
  intro TX1 TX2 dTX1 dTX2 kvs1 kvs2 b1 txs2 hsame h1 htx
  rw [Block.deserialize_obj_ok] at h1 ⊢
  obtain ⟨hdup, k2, k3, k4, k5, k6, k7, k8, k9, k10, k11, k12, k13, k14, k15,
    k16, k17, k18, -, k20, k21, k22⟩ := h1
  have hg : ∀ name, name ≠ "transactions" →
      getField kvs2 name = getField kvs1 name :=
    fun name hn => (hsame.getField_eq name hn).symm
  refine ⟨?_, ?_, ?_, ?_, ?_, ?_, ?_, ?_, ?_, ?_, ?_, ?_, ?_, ?_, ?_, ?_,
    ?_, ?_, htx, ?_, ?_, ?_⟩
  · rw [← dupField_congr_keys knownBlockKeys kvs1 kvs2 hsame.keys_eq]
    exact hdup
  · rw [optFieldD_congr _ kvs1 _ _ (hg _ (by decide))]; exact k2
  · rw [reqFieldD_congr _ kvs1 _ _ (hg _ (by decide))]; exact k3
  · rw [reqFieldD_congr _ kvs1 _ _ (hg _ (by decide))]; exact k4
  · rw [reqFieldD_congr _ kvs1 _ _ (hg _ (by decide))]; exact k5
  · rw [reqFieldD_congr _ kvs1 _ _ (hg _ (by decide))]; exact k6
  · rw [reqFieldD_congr _ kvs1 _ _ (hg _ (by decide))]; exact k7
  · rw [reqFieldD_congr _ kvs1 _ _ (hg _ (by decide))]; exact k8
  · rw [optFieldD_congr _ kvs1 _ _ (hg _ (by decide))]; exact k9
  · rw [reqFieldD_congr _ kvs1 _ _ (hg _ (by decide))]; exact k10
  · rw [reqFieldD_congr _ kvs1 _ _ (hg _ (by decide))]; exact k11
  · rw [reqFieldD_congr _ kvs1 _ _ (hg _ (by decide))]; exact k12
  · rw [optFieldD_congr _ kvs1 _ _ (hg _ (by decide))]; exact k13
  · rw [reqFieldD_congr _ kvs1 _ _ (hg _ (by decide))]; exact k14
  · rw [reqFieldD_congr _ kvs1 _ _ (hg _ (by decide))]; exact k15
  · rw [optFieldD_congr _ kvs1 _ _ (hg _ (by decide))]; exact k16
  · rw [defFieldD_congr _ kvs1 _ _ _ (hg _ (by decide))]; exact k17
  · rw [reqFieldD_congr _ kvs1 _ _ (hg _ (by decide))]; exact k18
  · rw [optFieldD_congr _ kvs1 _ _ (hg _ (by decide))]; exact k20
  · rw [optFieldD_congr _ kvs1 _ _ (hg _ (by decide))]; exact k21
  · rw [optFieldD_congr _ kvs1 _ _ (hg _ (by decide))]; exact k22

/-- C6 witness: the sample object with hash-string transactions and the
same object with byte-string transactions decode to blocks that agree on
every other field. -/
theorem C6_parametric_in_tx_witness :
    Block.deserialize decBytes (Json.obj sampleKvs2) =
      .ok { hash := sampleBlock.hash, parent_hash := sampleBlock.parent_hash,
            uncles_hash := sampleBlock.uncles_hash,
            author := sampleBlock.author,
            state_root := sampleBlock.state_root,
            transactions_root := sampleBlock.transactions_root,
            receipts_root := sampleBlock.receipts_root,
            number := sampleBlock.number, gas_used := sampleBlock.gas_used,
            gas_limit := sampleBlock.gas_limit,
            extra_data := sampleBlock.extra_data,
            logs_bloom := sampleBlock.logs_bloom,
            timestamp := sampleBlock.timestamp,
            difficulty := sampleBlock.difficulty,
            total_difficulty := sampleBlock.total_difficulty,
            seal_fields := sampleBlock.seal_fields,
            uncles := sampleBlock.uncles,
            transactions := [[⟨1, by norm_num⟩, ⟨2, by norm_num⟩]],
            size := sampleBlock.size, mix_hash := sampleBlock.mix_hash,
            nonce := sampleBlock.nonce } :=
  C6_parametric_in_tx H256 Bytes decH256 decBytes sampleKvs sampleKvs2
    sampleBlock [[⟨1, by norm_num⟩, ⟨2, by norm_num⟩]] sample_sameExceptTx
    sample_decode_ok sample2_txs

/-- C7: for any object that decodes successfully, removing the
`"sealFields"` wire key entirely still decodes successfully, with
`seal_fields` the empty sequence; and this empty-default is the only
default substitution — removing any required wire key instead turns the
decode into an error. -/
theorem C7_sealFields_default :
    ∀ (TX : Type) (dTX : Json → Except DecodeError TX)
      (kvs : List (String × Json)) (b : Block TX),
      Block.deserialize dTX (.obj kvs) = .ok b →
        Block.deserialize dTX (.obj (eraseKey "sealFields" kvs)) =
            .ok { b with seal_fields := [] } ∧
        (∀ name ∈ requiredBlockKeys,
          ∃ e, Block.deserialize dTX (.obj (eraseKey name kvs)) = .error e) := by
  intro TX dTX kvs b h
  rw [Block.deserialize_obj_ok] at h
  obtain ⟨hdup, k2, k3, k4, k5, k6, k7, k8, k9, k10, k11, k12, k13, k14, k15,
    k16, -, k18, k19, k20, k21, k22⟩ := h
  constructor
  · have hg : ∀ n, n ≠ "sealFields" →
        getField (eraseKey "sealFields" kvs) n = getField kvs n := by
      intro n hn
      rw [getField_eraseKey, if_neg hn]
    rw [Block.deserialize_obj_ok]
    refine ⟨dupField_eraseKey_none _ _ _ hdup, ?_, ?_, ?_, ?_, ?_, ?_, ?_,
      ?_, ?_, ?_, ?_, ?_, ?_, ?_, ?_, ?_, ?_, ?_, ?_, ?_, ?_⟩
    · rw [optFieldD_congr _ kvs _ _ (hg _ (by decide))]; exact k2
    · rw [reqFieldD_congr _ kvs _ _ (hg _ (by decide))]; exact k3
    · rw [reqFieldD_congr _ kvs _ _ (hg _ (by decide))]; exact k4
    · rw [reqFieldD_congr _ kvs _ _ (hg _ (by decide))]; exact k5
    · rw [reqFieldD_congr _ kvs _ _ (hg _ (by decide))]; exact k6
    · rw [reqFieldD_congr _ kvs _ _ (hg _ (by decide))]; exact k7
    · rw [reqFieldD_congr _ kvs _ _ (hg _ (by decide))]; exact k8
    · rw [optFieldD_congr _ kvs _ _ (hg _ (by decide))]; exact k9
    · rw [reqFieldD_congr _ kvs _ _ (hg _ (by decide))]; exact k10
    · rw [reqFieldD_congr _ kvs _ _ (hg _ (by decide))]; exact k11
    · rw [reqFieldD_congr _ kvs _ _ (hg _ (by decide))]; exact k12
    · rw [optFieldD_congr _ kvs _ _ (hg _ (by decide))]; exact k13
    · rw [reqFieldD_congr _ kvs _ _ (hg _ (by decide))]; exact k14
    · rw [reqFieldD_congr _ kvs _ _ (hg _ (by decide))]; exact k15
    · rw [optFieldD_congr _ kvs _ _ (hg _ (by decide))]; exact k16
    · exact defFieldD_absent _ _ _ _ (by rw [getField_eraseKey, if_pos rfl])
    · rw [reqFieldD_congr _ kvs _ _ (hg _ (by decide))]; exact k18
    · rw [reqFieldD_congr _ kvs _ _ (hg _ (by decide))]; exact k19
    · rw [optFieldD_congr _ kvs _ _ (hg _ (by decide))]; exact k20
    · rw [optFieldD_congr _ kvs _ _ (hg _ (by decide))]; exact k21
    · rw [optFieldD_congr _ kvs _ _ (hg _ (by decide))]; exact k22
  · intro name hname
    exact errValue_exists _
      (deserialize_err_of_required_absent dTX _ name hname
        (by rw [getField_eraseKey, if_pos rfl]))

/-- C7 witness: removing `"sealFields"` from the decoded sample object
yields the sample block with an empty `seal_fields`. -/
theorem C7_sealFields_default_witness :
    Block.deserialize decH256 (Json.obj (eraseKey "sealFields" sampleKvs)) =
      .ok { sampleBlock with seal_fields := [] } :=
  (C7_sealFields_default H256 decH256 sampleKvs sampleBlock sample_decode_ok).1

/-- C10: the derived structural serializer (emitting the renamed wire
keys) is a right inverse of decode — for every in-memory default-
configuration block, over any element type whose encode/decode is
symmetric, serializing and then decoding returns the original block,
including all `Option`-valued fields and the order of `seal_fields`,
`uncles` and `transactions`. -/
theorem C10_serialize_roundtrip :
    ∀ (TX : Type) (eTX : TX → Json) (dTX : Json → Except DecodeError TX),
      (∀ t, dTX (eTX t) = .ok t) →
      ∀ b : Block TX, Block.deserialize dTX (Block.serialize eTX b) = .ok b := by
  intro TX eTX dTX hTX b
  have g1 : getField (Block.serializeFields eTX b) "hash" =
      some (encOption encH256 b.hash) := rfl
  have g2 : getField (Block.serializeFields eTX b) "parentHash" =
      some (encH256 b.parent_hash) := rfl
  have g3 : getField (Block.serializeFields eTX b) "sha3Uncles" =
      some (encH256 b.uncles_hash) := rfl
  have g4 : getField (Block.serializeFields eTX b) "miner" =
      some (encAddress b.author) := rfl
  have g5 : getField (Block.serializeFields eTX b) "stateRoot" =
      some (encH256 b.state_root) := rfl
  have g6 : getField (Block.serializeFields eTX b) "transactionsRoot" =
      some (encH256 b.transactions_root) := rfl
  have g7 : getField (Block.serializeFields eTX b) "receiptsRoot" =
      some (encH256 b.receipts_root) := rfl
  have g8 : getField (Block.serializeFields eTX b) "number" =
      some (encOption encU64 b.number) := rfl
  have g9 : getField (Block.serializeFields eTX b) "gasUsed" =
      some (encU256 b.gas_used) := rfl
  have g10 : getField (Block.serializeFields eTX b) "gasLimit" =
      some (encU256 b.gas_limit) := rfl
  have g11 : getField (Block.serializeFields eTX b) "extraData" =
      some (encBytes b.extra_data) := rfl
  have g12 : getField (Block.serializeFields eTX b) "logsBloom" =
      some (encOption encBloom b.logs_bloom) := rfl
  have g13 : getField (Block.serializeFields eTX b) "timestamp" =
      some (encU256 b.timestamp) := rfl
  have g14 : getField (Block.serializeFields eTX b) "difficulty" =
      some (encU256 b.difficulty) := rfl
  have g15 : getField (Block.serializeFields eTX b) "totalDifficulty" =
      some (encOption encU256 b.total_difficulty) := rfl
  have g16 : getField (Block.serializeFields eTX b) "sealFields" =
      some (.arr (b.seal_fields.map encBytes)) := rfl
  have g17 : getField (Block.serializeFields eTX b) "uncles" =
      some (.arr (b.uncles.map encH256)) := rfl
  have g18 : getField (Block.serializeFields eTX b) "transactions" =
      some (.arr (b.transactions.map eTX)) := rfl
  have g19 : getField (Block.serializeFields eTX b) "size" =
      some (encOption encU256 b.size) := rfl
  have g20 : getField (Block.serializeFields eTX b) "mixHash" =
      some (encOption encH256 b.mix_hash) := rfl
  have g21 : getField (Block.serializeFields eTX b) "nonce" =
      some (encOption encU64 b.nonce) := rfl
  have hkeys : (Block.serializeFields eTX b).map Prod.fst = knownBlockKeys := rfl
  rw [Block.serialize, Block.deserialize_obj_ok]
  refine ⟨dupField_of_nodup_keys _ _ (by rw [hkeys]; decide), ?_, ?_, ?_, ?_,
    ?_, ?_, ?_, ?_, ?_, ?_, ?_, ?_, ?_, ?_, ?_, ?_, ?_, ?_, ?_, ?_, ?_⟩
  · rw [optFieldD_present decH256 g1]
    exact decOptVal_encOption decH256 encH256 encH256_ne_null decH256_encH256 _
  · rw [reqFieldD_present decH256 g2]; exact decH256_encH256 _
  · rw [reqFieldD_present decH256 g3]; exact decH256_encH256 _
  · rw [reqFieldD_present decAddress g4]; exact decAddress_encAddress _
  · rw [reqFieldD_present decH256 g5]; exact decH256_encH256 _
  · rw [reqFieldD_present decH256 g6]; exact decH256_encH256 _
  · rw [reqFieldD_present decH256 g7]; exact decH256_encH256 _
  · rw [optFieldD_present decU64 g8]
    exact decOptVal_encOption decU64 encU64 encU64_ne_null decU64_encU64 _
  · rw [reqFieldD_present decU256 g9]; exact decU256_encU256 _
  · rw [reqFieldD_present decU256 g10]; exact decU256_encU256 _
  · rw [reqFieldD_present decBytes g11]; exact decBytes_encBytes _
  · rw [optFieldD_present decBloom g12]
    exact decOptVal_encOption decBloom encBloom encBloom_ne_null decBloom_encBloom _
  · rw [reqFieldD_present decU256 g13]; exact decU256_encU256 _
  · rw [reqFieldD_present decU256 g14]; exact decU256_encU256 _
  · rw [optFieldD_present decU256 g15]
    exact decOptVal_encOption decU256 encU256 encU256_ne_null decU256_encU256 _
  · rw [defFieldD_present (decListOf decBytes) [] g16]
    exact decListOf_encList decBytes encBytes decBytes_encBytes _
  · rw [reqFieldD_present (decListOf decH256) g17]
    exact decListOf_encList decH256 encH256 decH256_encH256 _
  · rw [reqFieldD_present (decListOf dTX) g18]
    exact decListOf_encList dTX eTX hTX _
  · rw [optFieldD_present decU256 g19]
    exact decOptVal_encOption decU256 encU256 encU256_ne_null decU256_encU256 _
  · rw [optFieldD_present decH256 g20]
    exact decOptVal_encOption decH256 encH256 encH256_ne_null decH256_encH256 _
  · rw [optFieldD_present decU64 g21]
    exact decOptVal_encOption decU64 encU64 encU64_ne_null decU64_encU64 _

/-- C10 witness: serializing and decoding the sample block (hash-typed
transaction elements) returns it unchanged. -/
theorem C10_serialize_roundtrip_witness :
    Block.deserialize decH256 (Block.serialize encH256 sampleBlock) =
      .ok sampleBlock :=
  C10_serialize_roundtrip H256 encH256 decH256 decH256_encH256 sampleBlock
